import Mathlib

/-!
Verification of the MusicWorlds Highrise music bot (`src/index.js`).

The development shallowly embeds the bot's single source file:
* a `Js` value type for the dynamically-typed JSON data the bot moves around;
* executable models of `JSON.parse` / `JSON.stringify` (restricted to the
  JSON subset the bot exchanges: integer numerals, the escapes
  `\" \\ \/ \n \t \r`; this is noted at each definition);
* the request decoder, the inbox processor, the queue synchronizer
  (`updateStorage`), the startup queue restore, and one iteration of the
  polling loop (`runCycle`), driven by a model of the versioned remote
  storage contract of the Highrise Worlds API (GET/PUT with optimistic
  version tokens) together with a fault-injection list standing for
  transport failures and version conflicts caused by concurrent writers.

Every cycle records the externally visible actions (HTTP requests, resolver
calls, queue mutations, scheduler transitions) in an event trace, so the
ordering and error-handling properties of the spec can be stated as
properties of that trace.
-/

/-- JavaScript/JSON values as the bot manipulates them.  Numbers are
modelled as integers: every number the bot itself produces or consumes
(durations, timestamps, versions) is integral. -/
inductive Js where
  | null
  | bool (b : Bool)
  | num (n : Int)
  | str (s : String)
  | arr (elems : List Js)
  | obj (fields : List (String × Js))

/-- JavaScript truthiness for the values of `Js` (`undefined` does not occur
as a first-class value in the model; absent properties are `Option.none`). -/
def truthy : Js → Bool
  | .null => false
  | .bool b => b
  | .num n => n != 0
  | .str s => s ≠ ""
  | .arr _ => true
  | .obj _ => true

/-- Whitespace accepted between JSON tokens. -/
def isWs (c : Char) : Bool :=
  c = ' ' || c = '\n' || c = '\t' || c = '\r'

/-- Drop leading JSON whitespace. -/
def skipWs : List Char → List Char
  | [] => []
  | c :: cs => if isWs c then skipWs cs else c :: cs

/-- Decode one escape character of a JSON string literal (the escapes the
bot's data can contain; `\b \f \uXXXX` are outside the modelled subset). -/
def unescape : Char → Option Char
  | 'n' => some '\n'
  | 't' => some '\t'
  | 'r' => some '\r'
  | '"' => some '"'
  | '\\' => some '\\'
  | '/' => some '/'
  | _ => none

mutual

/-- Parse the body of a JSON string literal (after the opening quote),
returning the decoded characters and the input after the closing quote. -/
def parseStringBody : List Char → Option (List Char × List Char)
  | [] => none
  | c :: rest =>
    if c = '"' then some ([], rest)
    else if c = '\\' then parseEscape rest
    else (parseStringBody rest).map (fun p => (c :: p.1, p.2))

/-- Continue a string body after a backslash. -/
def parseEscape : List Char → Option (List Char × List Char)
  | [] => none
  | e :: rest =>
    match unescape e with
    | some u => (parseStringBody rest).map (fun p => (u :: p.1, p.2))
    | none => none

end

/-- Numeric value of a decimal digit character. -/
def digitVal (c : Char) : Nat := c.toNat - 48

/-- Consume a run of decimal digits, accumulating their value. -/
def parseDigits : List Char → Nat → Nat × List Char
  | [], acc => (acc, [])
  | c :: cs, acc =>
    if c.isDigit then parseDigits cs (acc * 10 + digitVal c) else (acc, c :: cs)

/-- Parse a digit run that must start with a digit. -/
def parseDigitsStart : List Char → Option (Nat × List Char)
  | [] => none
  | c :: cs => if c.isDigit then some (parseDigits cs (digitVal c)) else none

/-- Parse a JSON integer numeral (optional minus sign, digits). -/
def parseNumber : List Char → Option (Int × List Char)
  | [] => none
  | c :: rest =>
    if c = '-' then (parseDigitsStart rest).map (fun p => (-(p.1 : Int), p.2))
    else (parseDigitsStart (c :: rest)).map (fun p => ((p.1 : Int), p.2))

/-- Strip an expected literal character sequence. -/
def stripLit : List Char → List Char → Option (List Char)
  | [], cs => some cs
  | _ :: _, [] => none
  | p :: ps, c :: cs => if c = p then stripLit ps cs else none

/-- Parse the JSON literals `null`, `true`, `false`. -/
def parseLit (cs : List Char) : Option (Js × List Char) :=
  match stripLit ['n', 'u', 'l', 'l'] cs with
  | some r => some (.null, r)
  | none =>
    match stripLit ['t', 'r', 'u', 'e'] cs with
    | some r => some (.bool true, r)
    | none =>
      match stripLit ['f', 'a', 'l', 's', 'e'] cs with
      | some r => some (.bool false, r)
      | none =>
        match parseNumber cs with
        | some (n, r) => some (.num n, r)
        | none => none

/-- Whether the input starts with the given character. -/
def headIs (cs : List Char) (d : Char) : Bool :=
  match cs with
  | [] => false
  | c :: _ => c = d

mutual

/-- Parse one JSON value.  The fuel argument only bounds the nesting depth
of recursive descent; `jsonParse` supplies enough for any input. -/
def parseValue : Nat → List Char → Option (Js × List Char)
  | 0, _ => none
  | fuel + 1, cs =>
    match skipWs cs with
    | [] => none
    | c :: rest =>
      if c = '"' then
        (parseStringBody rest).map (fun p => (Js.str (String.mk p.1), p.2))
      else if c = '[' then
        let t := skipWs rest
        if headIs t ']' then some (.arr [], t.tail)
        else
          match parseElems fuel t with
          | some (xs, r) => some (.arr xs, r)
          | none => none
      else if c = '{' then
        let t := skipWs rest
        if headIs t '}' then some (.obj [], t.tail)
        else
          match parseMembers fuel t with
          | some (fs, r) => some (.obj fs, r)
          | none => none
      else parseLit (c :: rest)

/-- Parse a non-empty comma-separated element list up to the closing `]`. -/
def parseElems : Nat → List Char → Option (List Js × List Char)
  | 0, _ => none
  | fuel + 1, cs =>
    match parseValue fuel cs with
    | none => none
    | some (v, rest) =>
      let t := skipWs rest
      if headIs t ',' then (parseElems fuel t.tail).map (fun p => (v :: p.1, p.2))
      else if headIs t ']' then some ([v], t.tail)
      else none

/-- Parse a non-empty comma-separated member list up to the closing brace. -/
def parseMembers : Nat → List Char → Option (List (String × Js) × List Char)
  | 0, _ => none
  | fuel + 1, cs =>
    let t := skipWs cs
    if headIs t '"' then
      match parseStringBody t.tail with
      | none => none
      | some (k, rest₁) =>
        let t₁ := skipWs rest₁
        if headIs t₁ ':' then
          match parseValue fuel t₁.tail with
          | none => none
          | some (v, rest₂) =>
            let t₂ := skipWs rest₂
            if headIs t₂ ',' then
              (parseMembers fuel t₂.tail).map (fun p => ((String.mk k, v) :: p.1, p.2))
            else if headIs t₂ '}' then some ([(String.mk k, v)], t₂.tail)
            else none
        else none
    else none

end

/-- Model of `JSON.parse` on the modelled subset: parse one value and
require that only whitespace remains. -/
def jsonParse (s : String) : Option Js :=
  match parseValue (s.length + 1) s.data with
  | some (v, rest) => if skipWs rest = [] then some v else none
  | none => none

/-- Escape one character for a JSON string literal, as `JSON.stringify`
does for the characters in the modelled subset. -/
def escChar (c : Char) : List Char :=
  if c = '"' then ['\\', '"']
  else if c = '\\' then ['\\', '\\']
  else if c = '\n' then ['\\', 'n']
  else if c = '\t' then ['\\', 't']
  else if c = '\r' then ['\\', 'r']
  else [c]

/-- Escape a whole string body. -/
def escapeChars : List Char → List Char
  | [] => []
  | c :: cs => escChar c ++ escapeChars cs

/-- Decimal digits of a natural number, most significant first,
accumulated onto `acc`.  The first argument is fuel bounding the digit
count; `natToChars` supplies enough for any input. -/
def natDigitsAux : Nat → Nat → List Char → List Char
  | 0, _, acc => acc
  | fuel + 1, n, acc =>
    if n = 0 then acc
    else natDigitsAux fuel (n / 10) (Char.ofNat (48 + n % 10) :: acc)

/-- Decimal representation of a natural number. -/
def natToChars (n : Nat) : List Char :=
  if n = 0 then ['0'] else natDigitsAux (n + 1) n []

/-- Decimal representation of an integer. -/
def intToChars (n : Int) : List Char :=
  if n < 0 then '-' :: natToChars n.natAbs else natToChars n.natAbs

mutual

/-- Model of `JSON.stringify` (character-list level) on `Js` values. -/
def stringifyChars : Js → List Char
  | .bool true => ['t', 'r', 'u', 'e']
  | .null => ['n', 'u', 'l', 'l']
  | .bool false => ['f', 'a', 'l', 's', 'e']
  | .num n => intToChars n
  | .str s => '"' :: (escapeChars s.data ++ ['"'])
  | .arr xs => '[' :: (stringifyElems xs ++ [']'])
  | .obj fs => '{' :: (stringifyFields fs ++ ['}'])

/-- Stringify an array element list, comma separated. -/
def stringifyElems : List Js → List Char
  | [] => []
  | [x] => stringifyChars x
  | x :: y :: ys => stringifyChars x ++ ',' :: stringifyElems (y :: ys)

/-- Stringify an object member list, comma separated. -/
def stringifyFields : List (String × Js) → List Char
  | [] => []
  | [(k, v)] => '"' :: (escapeChars k.data ++ '"' :: ':' :: stringifyChars v)
  | (k, v) :: f :: fs =>
    '"' :: (escapeChars k.data ++ '"' :: ':' :: stringifyChars v) ++ ',' :: stringifyFields (f :: fs)

end

/-- Model of `JSON.stringify` producing a `String`. -/
def jsonStringify (v : Js) : String := String.mk (stringifyChars v)


/-! ## Dynamic object access

Property access and assignment on `Js` values, as the untyped source uses
them (`request.query`, `songInfo.user = ...`).  Access on a non-object or
a missing key is JavaScript `undefined`, modelled as `Option.none`. -/

/-- Look up a property; with duplicate keys (possible after `JSON.parse`)
the last occurrence wins, as in JavaScript. -/
def lookupLast (fields : List (String × Js)) (k : String) : Option Js :=
  match fields with
  | [] => none
  | (k', v) :: rest =>
    match lookupLast rest k with
    | some w => some w
    | none => if k' = k then some v else none

/-- Model of JavaScript property read `v[k]` (`undefined` ↦ `none`). -/
def getField (v : Js) (k : String) : Option Js :=
  match v with
  | .obj fs => lookupLast fs k
  | _ => none

/-- After a binding of `k` is replaced, any later duplicates of `k` are
dropped from the property list. -/
def setFieldsDrop (fields : List (String × Js)) (k : String) (x : Js) : List (String × Js) :=
  match fields with
  | [] => []
  | (k', v) :: rest =>
    if k' = k then setFieldsDrop rest k x else (k', v) :: setFieldsDrop rest k x

/-- Replace every binding of `k` (or append one) — model of property
assignment `v[k] = x` on an object value. -/
def setFields (fields : List (String × Js)) (k : String) (x : Js) : List (String × Js) :=
  match fields with
  | [] => [(k, x)]
  | (k', v) :: rest =>
    if k' = k then (k', x) :: setFieldsDrop rest k x
    else (k', v) :: setFields rest k x

/-- Model of property assignment on a `Js` value (assignment to a
non-object is a no-op at the value level, as primitives are not boxed). -/
def setField (v : Js) (k : String) (x : Js) : Js :=
  match v with
  | .obj fs => .obj (setFields fs k x)
  | w => w

/-- Model of the JavaScript `x || d` default idiom applied to a possibly
absent property value. -/
def orDefault (v : Option Js) (d : Js) : Js :=
  match v with
  | some x => if truthy x then x else d
  | none => d

/-- String coercion of a `Js` value as a template literal performs it
(objects display as `[object Object]`; arrays join their elements). -/
def jsToString : Js → String
  | .null => "null"
  | .bool b => if b then "true" else "false"
  | .num n => String.mk (intToChars n)
  | .str s => s
  | .arr _ => ""
  | .obj _ => "[object Object]"

/-! ## Remote storage model

The Highrise Worlds storage API, as consumed by `fetchStorage` /
`updateStorage` (spec §4.1): two logical keys holding a string value and
an opaque version token (modelled as `Nat`).  `GET` of an absent key is a
404, which `fetchKey` turns into `null`.  `PUT` with an expected version
that does not match the server's current version fails and does not
apply; `PUT` without an expected version overwrites unconditionally.

A list of injected faults models transport failures and the conflicts
caused by concurrent writers: each `PUT` consumes one entry (default
`false`), and a `true` entry makes that `PUT` fail without applying. -/

/-- Metadata of a fetched storage object (`res.data.metadata`). -/
structure Meta where
  version : Option Nat

/-- A fetched storage object as `fetchKey` returns it (`res.data`). -/
structure StoredObj where
  value : String
  metadata : Option Meta

/-- Remote storage state: the two keys the bot uses. -/
structure Server where
  bot_inbox : Option (String × Nat)
  music_queue : Option (String × Nat)

/-- Slot of a key in the server state. -/
def serverGetSlot (srv : Server) (key : String) : Option (String × Nat) :=
  if key = "bot_inbox" then srv.bot_inbox
  else if key = "music_queue" then srv.music_queue
  else none

/-- Overwrite the slot of a key. -/
def serverSetSlot (srv : Server) (key : String) (v : String × Nat) : Server :=
  if key = "bot_inbox" then { srv with bot_inbox := some v }
  else if key = "music_queue" then { srv with music_queue := some v }
  else srv

/-- Server-side `PUT` semantics with optimistic concurrency: `none` as the
expected version overwrites unconditionally; a mismatching expected
version is a `VersionConflict` (result `none`, state unchanged). -/
def serverPut (srv : Server) (key : String) (payload : String)
    (expected : Option Nat) : Server × Option Nat :=
  match expected with
  | none =>
    let newV := match serverGetSlot srv key with
      | some (_, v) => v + 1
      | none => 1
    (serverSetSlot srv key (payload, newV), some newV)
  | some v =>
    match serverGetSlot srv key with
    | some (_, w) =>
      if w = v then (serverSetSlot srv key (payload, v + 1), some (v + 1))
      else (srv, none)
    | none => (srv, none)

/-- Model of `fetchKey`: a successful `GET` exposes the value and the
version nested under `metadata`, a 404 yields `null` (`none`). -/
def serverGet (srv : Server) (key : String) : Option StoredObj :=
  match serverGetSlot srv key with
  | some (s, v) => some { value := s, metadata := some { version := some v } }
  | none => none

/-- Externally visible actions of one poll cycle, in program order. -/
inductive Event where
  | getReq (key : String)
  | putReq (key : String) (payload : String) (expected : Option Nat)
  | putOk (key : String) (newVersion : Nat)
  | putFail (key : String)
  | resolve (query : Js)
  | append (song : Js)
  | songFinished
  | pop
  | promote (song : Js)

/-- Process-local mutable state of `index.js` (`musicQueue`, `isPlaying`,
`currentSong`, `playingUntil`).  `playingUntil : Option Int` models a
numeric timestamp, with `none` standing for the `NaN` that
`currentSong.duration * 1000` produces when the duration is not a number
(`now >= NaN` is false, like the `none` case of `deadlineReached`). -/
structure LocalState where
  musicQueue : List Js
  isPlaying : Bool
  currentSong : Option Js
  playingUntil : Option Int

/-- Result of one modelled `updateStorage` call: new server state,
remaining fault list, emitted events, and `some newVersion` on success or
`none` when the call threw (conflict or injected transport fault). -/
structure PutOut where
  srv : Server
  faults : List Bool
  events : List Event
  result : Option Nat

/-- The `value` serialization of `updateStorage` line 65:
`typeof value === 'string' ? value : JSON.stringify(value)`. -/
def putPayload (value : Js) : String :=
  match value with
  | .str s => s
  | v => jsonStringify v

/-- The `if (version)` truthiness guard of `updateStorage` lines 71–73: a
missing or zero version token is omitted from the request body. -/
def normVersion (version : Option Nat) : Option Nat :=
  match version with
  | some v => if v = 0 then none else some v
  | none => none

/-- Model of `updateStorage` (`src/index.js` lines 62–87): serialize
non-string values with `JSON.stringify`, include the version only when it
is truthy (`if (version)`), and surface any failure to the caller (the
function re-throws after logging). -/
def updateStorage (srv : Server) (faults : List Bool) (key : String)
    (value : Js) (version : Option Nat) : PutOut :=
  let payload := putPayload value
  let expected := normVersion version
  let fault := faults.headD false
  let rest := faults.tail
  if fault then
    { srv := srv, faults := rest
      events := [.putReq key payload expected, .putFail key], result := none }
  else
    match serverPut srv key payload expected with
    | (srv', some v) =>
      { srv := srv', faults := rest
        events := [.putReq key payload expected, .putOk key v], result := some v }
    | (srv', none) =>
      { srv := srv', faults := rest
        events := [.putReq key payload expected, .putFail key], result := none }

/-- Model of the `resolveSong` stub (`src/index.js` lines 90–100): a fixed
radio URL, 30-second mock duration, and a title built from the query. -/
def resolveSong (query : Js) : Js :=
  .obj [("title", .str ("Song: " ++ jsToString query)),
        ("url", .str "http://46.224.123.14:8000/radio"),
        ("duration", .num 30),
        ("user", .str "Unknown")]

/-- The structured-request fallback `{ query: s, user: "Unknown", userid: "" }`
built when a parse attempt fails (the spec writes the key as `userId`;
the source uses `userid`). -/
def fallbackRequest (s : String) : Js :=
  .obj [("query", .str s), ("user", .str "Unknown"), ("userid", .str "")]

/-- The request decoder of `main` (`src/index.js` lines 164–187): parse a
string value, fall back to a raw-query object on failure, and re-parse
once when the first parse yields a string (double-encoded producers). -/
def decodeRequest (inboxValue : Js) : Js :=
  let request := match inboxValue with
    | .str s =>
      (match jsonParse s with
       | some r => r
       | none => fallbackRequest s)
    | v => v
  match request with
  | .str s =>
    (match jsonParse s with
     | some r => r
     | none => fallbackRequest s)
  | r => r

/-- Whether the decoded request is JSON `null`: the property read
`request.query` of `main` line 195 then throws a `TypeError` (a read on
any other primitive merely yields `undefined`). -/
def isNullJs : Js → Bool
  | .null => true
  | _ => false

/-- Whether a value is the empty string (the `=== ""` comparison). -/
def isEmptyStr (v : Js) : Bool :=
  match v with
  | .str s => s = ""
  | _ => false

/-- The guard `inboxValue && inboxValue !== ""` of `main` line 161. -/
def inboxNonEmpty (v : Js) : Bool :=
  truthy v && !isEmptyStr v

/-- The `inboxData ? inboxData.value : ""` read of `main` line 157. -/
def inboxValueOf (inboxData : Option StoredObj) : Js :=
  match inboxData with
  | some d => .str d.value
  | none => .str ""

/-- Version of a fetched object as `main` reads it:
`(data && data.metadata) ? data.metadata.version : null`. -/
def metaVersion (data : Option StoredObj) : Option Nat :=
  match data with
  | some d =>
    (match d.metadata with
     | some m => m.version
     | none => none)
  | none => none

/-- Result of the inbox-processing section of a cycle. -/
structure InboxOut where
  srv : Server
  faults : List Bool
  st : LocalState
  queueObj : Option StoredObj
  events : List Event

/-- The inbox-processing section of one poll cycle (`src/index.js` lines
155–227): when the inbox holds a non-empty value, decode it, clear the
inbox, resolve the song, stamp the requester identity, append to
`musicQueue`, and persist the queue with the version fetched this cycle
(cached version updated on success).  Any storage failure lands in the
catch handler, which re-clears the inbox. -/
def processInbox (srv : Server) (faults : List Bool) (st : LocalState)
    (inboxData queueObj : Option StoredObj) : InboxOut :=
  let inboxValue := inboxValueOf inboxData
  let inboxVersion := metaVersion inboxData
  if inboxNonEmpty inboxValue then
    let request := decodeRequest inboxValue
    let o₁ := updateStorage srv faults "bot_inbox" (.str "") inboxVersion
    match o₁.result with
    | none =>
      -- catch handler (lines 218–226): try to clear the inbox again with
      -- the version read at the top of the cycle; its own failure is
      -- swallowed
      let o₃ := updateStorage o₁.srv o₁.faults "bot_inbox" (.str "") inboxVersion
      { srv := o₃.srv, faults := o₃.faults, st := st, queueObj := queueObj
        events := o₁.events ++ o₃.events }
    | some _ =>
      if isNullJs request then
        -- `request.query` (line 195) throws a `TypeError` on a `null`
        -- request before the resolver runs; the catch handler (lines
        -- 218–226) re-clears the inbox with the version read at the top
        -- of the cycle, swallowing its own failure
        let o₃ := updateStorage o₁.srv o₁.faults "bot_inbox" (.str "") inboxVersion
        { srv := o₃.srv, faults := o₃.faults, st := st, queueObj := queueObj
          events := o₁.events ++ o₃.events }
      else
      let query := match getField request "query" with
        | some q => if truthy q then q else request
        | none => request
      let songInfo := resolveSong query
      let song :=
        setField (setField songInfo "user" (orDefault (getField request "user") (.str "Unknown")))
          "userid" (orDefault (getField request "userid") (.str ""))
      let st' := { st with musicQueue := st.musicQueue ++ [song] }
      let queueVersion := metaVersion queueObj
      let o₂ := updateStorage o₁.srv o₁.faults "music_queue" (.arr st'.musicQueue) queueVersion
      match o₂.result with
      | some newV =>
        let queueObj' := match queueObj with
          | some o => some { o with metadata := some { version := some newV } }
          | none => some { value := "", metadata := some { version := some newV } }
        { srv := o₂.srv, faults := o₂.faults, st := st', queueObj := queueObj'
          events := o₁.events ++ [.resolve query, .append song] ++ o₂.events }
      | none =>
        -- catch handler (lines 218–226): the queue write threw; try to
        -- clear the inbox again with the version read at the top of the
        -- cycle, swallowing its own failure
        let o₃ := updateStorage o₂.srv o₂.faults "bot_inbox" (.str "") inboxVersion
        { srv := o₃.srv, faults := o₃.faults, st := st', queueObj := queueObj
          events := o₁.events ++ [.resolve query, .append song] ++ o₂.events ++ o₃.events }
  else
    { srv := srv, faults := faults, st := st, queueObj := queueObj, events := [] }

/-- The check `now >= playingUntil`, with `none` standing for `NaN`
(a comparison against `NaN` is false). -/
def deadlineReached (playingUntil : Option Int) (now : Int) : Bool :=
  match playingUntil with
  | some t => decide (t ≤ now)
  | none => false

/-- The `currentSong.duration * 1000` of the promotion branch: `none`
(`NaN`) when the entry has no numeric duration. -/
def durationMs (song : Js) : Option Int :=
  match getField song "duration" with
  | some (.num d) => some (d * 1000)
  | _ => none

/-- Result of the deadline-expiry section of a cycle. -/
structure PlayOut where
  srv : Server
  faults : List Bool
  st : LocalState
  queueObj : Option StoredObj
  events : List Event

/-- The song-finished branch (`src/index.js` lines 233–253): when playing
and the deadline has passed, leave the `Playing` state, shift the head
off the queue, and persist the shortened queue; a failure of that write
is only logged. -/
def playbackExpiry (srv : Server) (faults : List Bool) (st : LocalState)
    (queueObj : Option StoredObj) (now : Int) : PlayOut :=
  if st.isPlaying && deadlineReached st.playingUntil now then
    let st' := { st with
      isPlaying := false
      currentSong := none
      musicQueue := st.musicQueue.tail }
    let queueVersion := metaVersion queueObj
    let o := updateStorage srv faults "music_queue" (.arr st'.musicQueue) queueVersion
    match o.result with
    | some v =>
      let queueObj' := match queueObj with
        | some ob => some { ob with metadata := some { version := some v } }
        | none => queueObj
      { srv := o.srv, faults := o.faults, st := st', queueObj := queueObj'
        events := [.songFinished, .pop] ++ o.events }
    | none =>
      { srv := o.srv, faults := o.faults, st := st', queueObj := queueObj
        events := [.songFinished, .pop] ++ o.events }
  else
    { srv := srv, faults := faults, st := st, queueObj := queueObj, events := [] }

/-- The idle-promotion branch (`src/index.js` lines 256–267): when not
playing and the queue is non-empty, the head becomes the current song
(it stays in the queue) and the deadline is set from its duration; no
storage write happens here. -/
def playbackPromote (st : LocalState) (now : Int) : LocalState × List Event :=
  if st.isPlaying then (st, [])
  else
    match st.musicQueue with
    | [] => (st, [])
    | song :: _ =>
      ({ st with
         currentSong := some song
         isPlaying := true
         playingUntil := match durationMs song with
           | some d => some (now + d)
           | none => none },
       [.promote song])

/-- Result of one full poll cycle. -/
structure CycleOut where
  srv : Server
  st : LocalState
  events : List Event

/-- One iteration of the polling loop of `main` (`src/index.js` lines
147–275): fetch both keys, process the inbox, evaluate the playback
deadline, then promote the next song if idle.  `now` is the `Date.now()`
read at line 230. -/
def runCycle (srv : Server) (faults : List Bool) (st : LocalState)
    (now : Int) : CycleOut :=
  let inboxData := serverGet srv "bot_inbox"
  let queueObj := serverGet srv "music_queue"
  let i := processInbox srv faults st inboxData queueObj
  let p := playbackExpiry i.srv i.faults i.st i.queueObj now
  let pr := playbackPromote p.st now
  { srv := p.srv, st := pr.1
    events := [.getReq "bot_inbox", .getReq "music_queue"] ++ i.events ++ p.events ++ pr.2 }

/-- The startup restore of `main` (`src/index.js` lines 134–145): an
absent object, an empty value, an unparsable value (the `JSON.parse`
exception is caught), or a parsed non-array all leave the queue empty;
only a parsed array is adopted. -/
def restoreQueue (stored : Option StoredObj) : List Js :=
  match stored with
  | some o =>
    if o.value ≠ "" then
      match jsonParse o.value with
      | some (.arr xs) => xs
      | _ => []
    else []
  | none => []

/-- The initial local state of the process (`src/index.js` lines 9–12
plus the startup restore). -/
def initialState (stored : Option StoredObj) : LocalState :=
  { musicQueue := restoreQueue stored, isPlaying := false
    currentSong := none, playingUntil := some 0 }

/-- Constructor tags of events, for stating trace-shape properties. -/
inductive ETag where
  | tGet
  | tPutReq
  | tPutOk
  | tPutFail
  | tResolve
  | tAppend
  | tFinished
  | tPop
  | tPromote
deriving DecidableEq, Repr

/-- The tag of an event. -/
def tagOf : Event → ETag
  | .getReq _ => .tGet
  | .putReq _ _ _ => .tPutReq
  | .putOk _ _ => .tPutOk
  | .putFail _ => .tPutFail
  | .resolve _ => .tResolve
  | .append _ => .tAppend
  | .songFinished => .tFinished
  | .pop => .tPop
  | .promote _ => .tPromote

/-- Events that the inbox-processing phase may emit (storage writes,
resolver calls, queue appends — no scheduler transitions, no reads). -/
def inboxKind (e : Event) : Bool :=
  match tagOf e with
  | .tGet | .tFinished | .tPop | .tPromote => false
  | _ => true

/-- Events that the deadline-expiry phase may emit (the finish/pop
transition and the persisting write — no resolver calls, appends,
promotions or reads). -/
def expiryKind (e : Event) : Bool :=
  match tagOf e with
  | .tGet | .tResolve | .tAppend | .tPromote => false
  | _ => true

/-- `PUT` request events addressed to the queue key. -/
def isQueuePutReq : Event → Bool
  | .putReq "music_queue" _ _ => true
  | _ => false

/-- `GET` request events. -/
def isGetReq : Event → Bool
  | .getReq _ => true
  | _ => false

/-- Storage events (requests or responses) addressed to the queue key. -/
def isQueueStorageEvent : Event → Bool
  | .putReq "music_queue" _ _ => true
  | .putOk "music_queue" _ => true
  | .putFail "music_queue" => true
  | _ => false

/-- Digit list of `n` as `natDigitsAux` produces it with ample fuel. -/
def digitsRep (n : Nat) : List Char := natDigitsAux (n + 1) n []

/-- Whether the input starts with a digit (which would extend a numeral). -/
def digitHead : List Char → Bool
  | [] => false
  | c :: _ => c.isDigit

/-- One decimal-accumulation step. -/
def stepD (a : Nat) (c : Char) : Nat := a * 10 + digitVal c

/-- Whether the input starts with a character that may legally follow a
serialized value (end of input, or a separator/closer). -/
def delimHead : List Char → Bool
  | [] => true
  | c :: _ => c = ',' || c = ']' || c = '}'

def srvC7 : Server := { bot_inbox := none, music_queue := some ("x", 7) }

def stC7 : LocalState :=
  { musicQueue := [Js.str "s1", Js.str "s2"], isPlaying := true
    currentSong := some (Js.str "s1"), playingUntil := some 100 }

/-- Whether the server-side inbox is empty or absent, so that the cycle's
inbox guard fails. -/
def inboxEmpty (srv : Server) : Bool :=
  match srv.bot_inbox with
  | some (s, _) => s = ""
  | none => true

def srvC6 : Server := { bot_inbox := none, music_queue := some ("q", 3) }

def stC6 : LocalState :=
  { musicQueue := [Js.str "a", Js.str "b"], isPlaying := true
    currentSong := some (Js.str "a"), playingUntil := some 50 }

def srvC1 : Server := { bot_inbox := some ("hi", 1), music_queue := some ("[]", 5) }

def srvC3 : Server := { bot_inbox := some ("yo", 4), music_queue := some ("[]", 9) }

/-! ## Round trip of the serialization

`jsonParse (jsonStringify v) = some v` for every `Js` value — the
substance of the spec's envelope/serialization round-trip property once
the (non-existent) envelope is taken as the identity. -/

theorem stringMk_data (s : String) : String.mk s.data = s := rfl

theorem skipWs_cons (c : Char) (cs : List Char) (h : isWs c = false) :
    skipWs (c :: cs) = c :: cs := by
  simp [skipWs, h]

/-- Parsing the escaped body of a string recovers the original characters. -/
theorem parseStringBody_escape (cs rest : List Char) :
    parseStringBody (escapeChars cs ++ '"' :: rest) = some (cs, rest) := by
  induction cs with
  | nil => simp [escapeChars, parseStringBody]
  | cons c cs ih =>
    by_cases h1 : c = '"'
    · subst h1; simp [escapeChars, escChar, parseStringBody, parseEscape, unescape, ih]
    · by_cases h2 : c = '\\'
      · subst h2; simp [escapeChars, escChar, parseStringBody, parseEscape, unescape, ih]
      · by_cases h3 : c = '\n'
        · subst h3; simp [escapeChars, escChar, parseStringBody, parseEscape, unescape, ih]
        · by_cases h4 : c = '\t'
          · subst h4; simp [escapeChars, escChar, parseStringBody, parseEscape, unescape, ih]
          · by_cases h5 : c = '\r'
            · subst h5; simp [escapeChars, escChar, parseStringBody, parseEscape, unescape, ih]
            · simp [escapeChars, escChar, parseStringBody, h1, h2, h3, h4, h5, ih]


theorem natDigitsAux_eq (n : Nat) : ∀ fuel acc, n ≤ fuel →
    natDigitsAux fuel n acc = digitsRep n ++ acc := by
  induction n using Nat.strong_induction_on with
  | _ n ih =>
    intro fuel acc h
    match n, fuel with
    | 0, 0 => simp [natDigitsAux, digitsRep]
    | 0, fuel + 1 => simp [natDigitsAux, digitsRep]
    | n + 1, fuel + 1 =>
      rw [natDigitsAux]
      simp only [Nat.succ_ne_zero, if_false]
      rw [ih ((n + 1) / 10) (Nat.div_lt_self (Nat.succ_pos n) (by decide)) fuel _
          (by omega)]
      conv_rhs =>
        rw [digitsRep, natDigitsAux]
        simp only [Nat.succ_ne_zero, if_false]
        rw [ih ((n + 1) / 10) (Nat.div_lt_self (Nat.succ_pos n) (by decide)) (n + 1) _
            (by omega)]
      simp

theorem digitsRep_zero : digitsRep 0 = [] := by simp [digitsRep, natDigitsAux]

theorem digitsRep_succ (n : Nat) (h : n ≠ 0) :
    digitsRep n = digitsRep (n / 10) ++ [Char.ofNat (48 + n % 10)] := by
  conv_lhs => rw [digitsRep]
  match n, h with
  | n + 1, _ =>
    rw [natDigitsAux]
    simp only [Nat.succ_ne_zero, if_false]
    rw [natDigitsAux_eq ((n + 1) / 10) (n + 1) _ (by omega)]

theorem digitChar_isDigit (m : Nat) (h : m < 10) :
    (Char.ofNat (48 + m)).isDigit = true := by
  interval_cases m <;> decide

theorem digitChar_val (m : Nat) (h : m < 10) :
    digitVal (Char.ofNat (48 + m)) = m := by
  interval_cases m <;> decide

theorem digitsRep_digits (n : Nat) : ∀ c ∈ digitsRep n, c.isDigit = true := by
  induction n using Nat.strong_induction_on with
  | _ n ih =>
    by_cases h : n = 0
    · subst h; simp [digitsRep_zero]
    · rw [digitsRep_succ n h]
      intro c hc
      rcases List.mem_append.mp hc with hl | hr
      · exact ih (n / 10) (Nat.div_lt_self (Nat.pos_of_ne_zero h) (by decide)) c hl
      · rcases List.mem_singleton.mp hr with rfl
        exact digitChar_isDigit (n % 10) (Nat.mod_lt n (by decide))

theorem digitsRep_ne_nil (n : Nat) (h : n ≠ 0) : digitsRep n ≠ [] := by
  rw [digitsRep_succ n h]
  simp

/-- A digit character is distinct from any non-digit character. -/
theorem digit_ne (c d : Char) (h : c.isDigit = true) (hd : d.isDigit = false) :
    c ≠ d := by
  intro heq
  subst heq
  rw [h] at hd
  exact Bool.noConfusion hd

theorem digit_not_ws (c : Char) (h : c.isDigit = true) : isWs c = false := by
  by_cases h1 : c = ' '
  · subst h1; exact absurd h (by decide)
  · by_cases h2 : c = '\n'
    · subst h2; exact absurd h (by decide)
    · by_cases h3 : c = '\t'
      · subst h3; exact absurd h (by decide)
      · by_cases h4 : c = '\r'
        · subst h4; exact absurd h (by decide)
        · simp [isWs, h1, h2, h3, h4]


theorem parseDigits_stop (tail : List Char) (a : Nat) (h : digitHead tail = false) :
    parseDigits tail a = (a, tail) := by
  cases tail with
  | nil => simp [parseDigits]
  | cons c cs => simp only [digitHead] at h; simp [parseDigits, h]


theorem parseDigits_digits (ds : List Char) : ∀ tail a,
    (∀ c ∈ ds, c.isDigit = true) → digitHead tail = false →
    parseDigits (ds ++ tail) a = (List.foldl stepD a ds, tail) := by
  induction ds with
  | nil =>
    intro tail a _ ht
    simp [parseDigits_stop tail a ht]
  | cons c ds ih =>
    intro tail a hds ht
    have hc : c.isDigit = true := hds c (List.mem_cons_self c ds)
    simp only [List.cons_append, parseDigits, hc, if_true, List.foldl_cons]
    exact ih tail (a * 10 + digitVal c) (fun x hx => hds x (List.mem_cons_of_mem c hx)) ht

theorem foldl_digitsRep (n : Nat) : ∀ a,
    List.foldl stepD a (digitsRep n) = a * 10 ^ (digitsRep n).length + n := by
  induction n using Nat.strong_induction_on with
  | _ n ih =>
    intro a
    by_cases h : n = 0
    · subst h; simp [digitsRep_zero]
    · rw [digitsRep_succ n h]
      rw [List.foldl_append, List.foldl_cons, List.foldl_nil]
      rw [ih (n / 10) (Nat.div_lt_self (Nat.pos_of_ne_zero h) (by decide)) a]
      simp only [stepD, digitChar_val (n % 10) (Nat.mod_lt n (by decide))]
      rw [List.length_append, List.length_singleton, pow_succ]
      have hdm : 10 * (n / 10) + n % 10 = n := Nat.div_add_mod n 10
      ring_nf
      omega

theorem parseDigits_digitsRep (n : Nat) (tail : List Char) (d : Char)
    (ds : List Char) (hrep : digitsRep n = d :: ds) (ht : digitHead tail = false) :
    parseDigits (ds ++ tail) (digitVal d) = (n, tail) := by
  have hds : ∀ c ∈ ds, c.isDigit = true := fun c hc =>
    digitsRep_digits n c (hrep ▸ List.mem_cons_of_mem d hc)
  rw [parseDigits_digits ds tail (digitVal d) hds ht]
  have h0 : List.foldl stepD (digitVal d) ds = List.foldl stepD 0 (digitsRep n) := by
    rw [hrep, List.foldl_cons]
    simp [stepD]
  rw [h0, foldl_digitsRep n 0]
  simp

theorem parseDigitsStart_natToChars (n : Nat) (tail : List Char)
    (ht : digitHead tail = false) :
    parseDigitsStart (natToChars n ++ tail) = some (n, tail) := by
  have h0 : ('0').isDigit = true := by decide
  by_cases h : n = 0
  · subst h
    simp only [natToChars, if_pos rfl, List.cons_append, List.nil_append,
      parseDigitsStart, h0, if_true]
    rw [parseDigits_stop tail (digitVal '0') ht]
    simp [digitVal]
  · rcases hrep : digitsRep n with _ | ⟨d, ds⟩
    · exact absurd hrep (digitsRep_ne_nil n h)
    · have hd : d.isDigit = true :=
        digitsRep_digits n d (hrep ▸ List.mem_cons_self d ds)
      have hnat : natToChars n = d :: ds := by rw [natToChars, if_neg h, ← digitsRep, hrep]
      rw [hnat, List.cons_append]
      simp only [parseDigitsStart, hd, if_true]
      rw [parseDigits_digitsRep n tail d ds hrep ht]

theorem natToChars_head_digit (n : Nat) :
    ∃ d ds, natToChars n = d :: ds ∧ d.isDigit = true := by
  by_cases h : n = 0
  · subst h; exact ⟨'0', [], rfl, by decide⟩
  · rcases hrep : digitsRep n with _ | ⟨d, ds⟩
    · exact absurd hrep (digitsRep_ne_nil n h)
    · refine ⟨d, ds, ?_, digitsRep_digits n d (hrep ▸ List.mem_cons_self d ds)⟩
      rw [natToChars, if_neg h, ← digitsRep, hrep]

theorem parseNumber_natToChars (n : Nat) (tail : List Char)
    (ht : digitHead tail = false) :
    parseNumber (natToChars n ++ tail) = some ((n : Int), tail) := by
  obtain ⟨d, ds, hnat, hd⟩ := natToChars_head_digit n
  have hne : ¬(d = '-') := digit_ne d '-' hd (by decide)
  rw [hnat, List.cons_append, parseNumber, if_neg hne]
  rw [← List.cons_append, ← hnat, parseDigitsStart_natToChars n tail ht]
  rfl

theorem parseNumber_intToChars (m : Int) (tail : List Char)
    (ht : digitHead tail = false) :
    parseNumber (intToChars m ++ tail) = some (m, tail) := by
  by_cases hm : m < 0
  · rw [intToChars, if_pos hm, List.cons_append, parseNumber]
    have hsl : ('-' : Char) = '-' := rfl
    rw [if_pos hsl]
    rw [parseDigitsStart_natToChars m.natAbs tail ht]
    have h : -((m.natAbs : Nat) : Int) = m := by omega
    simp [h]
    rw [abs_of_neg hm]
    ring
  · rw [intToChars, if_neg hm]
    have h : ((m.natAbs : Nat) : Int) = m := by omega
    rw [parseNumber_natToChars m.natAbs tail ht, h]


theorem delim_not_digit (rest : List Char) (h : delimHead rest = true) :
    digitHead rest = false := by
  cases rest with
  | nil => rfl
  | cons c cs =>
    simp only [delimHead, Bool.or_eq_true, decide_eq_true_eq] at h
    rcases h with (rfl | rfl) | rfl <;> simp [digitHead]

theorem stripLit_ne (p : Char) (ps : List Char) (c : Char) (cs : List Char)
    (h : ¬c = p) : stripLit (p :: ps) (c :: cs) = none := by
  simp [stripLit, h]

theorem intToChars_head (n : Int) :
    ∃ c t, intToChars n = c :: t ∧ (c = '-' ∨ c.isDigit = true) := by
  by_cases h : n < 0
  · rw [intToChars, if_pos h]
    exact ⟨'-', natToChars n.natAbs, rfl, Or.inl rfl⟩
  · rw [intToChars, if_neg h]
    obtain ⟨d, ds, hnat, hd⟩ := natToChars_head_digit n.natAbs
    exact ⟨d, ds, hnat, Or.inr hd⟩

theorem parseLit_num (n : Int) (rest : List Char) (ht : digitHead rest = false) :
    parseLit (intToChars n ++ rest) = some (.num n, rest) := by
  obtain ⟨c, t, hhead, hc⟩ := intToChars_head n
  have hn : ¬c = 'n' := by
    rcases hc with rfl | hd
    · decide
    · exact digit_ne c 'n' hd (by decide)
  have htr : ¬c = 't' := by
    rcases hc with rfl | hd
    · decide
    · exact digit_ne c 't' hd (by decide)
  have hf : ¬c = 'f' := by
    rcases hc with rfl | hd
    · decide
    · exact digit_ne c 'f' hd (by decide)
  rw [hhead, List.cons_append, parseLit,
    stripLit_ne 'n' ['u', 'l', 'l'] c (t ++ rest) hn,
    stripLit_ne 't' ['r', 'u', 'e'] c (t ++ rest) htr,
    stripLit_ne 'f' ['a', 'l', 's', 'e'] c (t ++ rest) hf,
    ← List.cons_append, ← hhead, parseNumber_intToChars n rest ht]

/-- The serialized form of any value begins with a non-whitespace
character that is not a separator or closer. -/
theorem stringify_head (v : Js) :
    ∃ c t, stringifyChars v = c :: t ∧ isWs c = false ∧
      ¬c = ']' ∧ ¬c = '}' ∧ ¬c = ',' := by
  cases v with
  | null => exact ⟨'n', _, rfl, by decide, by decide, by decide, by decide⟩
  | bool b =>
    cases b with
    | true => exact ⟨'t', _, rfl, by decide, by decide, by decide, by decide⟩
    | false => exact ⟨'f', _, rfl, by decide, by decide, by decide, by decide⟩
  | num n =>
    obtain ⟨c, t, hhead, hc⟩ := intToChars_head n
    refine ⟨c, t, by simp [stringifyChars, hhead], ?_, ?_, ?_, ?_⟩
    · rcases hc with rfl | hd
      · decide
      · exact digit_not_ws c hd
    · rcases hc with rfl | hd
      · decide
      · exact digit_ne c ']' hd (by decide)
    · rcases hc with rfl | hd
      · decide
      · exact digit_ne c '}' hd (by decide)
    · rcases hc with rfl | hd
      · decide
      · exact digit_ne c ',' hd (by decide)
  | str s => exact ⟨'"', _, rfl, by decide, by decide, by decide, by decide⟩
  | arr xs => exact ⟨'[', _, rfl, by decide, by decide, by decide, by decide⟩
  | obj fs => exact ⟨'{', _, rfl, by decide, by decide, by decide, by decide⟩

/-- The serialized form of a non-empty element list begins like the
serialized form of its first element. -/
theorem stringifyElems_head (x : Js) (xs : List Js) :
    ∃ c t, stringifyElems (x :: xs) = c :: t ∧ isWs c = false ∧
      ¬c = ']' ∧ ¬c = '}' ∧ ¬c = ',' := by
  obtain ⟨c, t, hhead, h1, h2, h3, h4⟩ := stringify_head x
  cases xs with
  | nil => exact ⟨c, t, by simp [stringifyElems, hhead], h1, h2, h3, h4⟩
  | cons y ys =>
    exact ⟨c, t ++ ',' :: stringifyElems (y :: ys),
      by simp [stringifyElems, hhead], h1, h2, h3, h4⟩

theorem parseValue_quote (f : Nat) (L : List Char) :
    parseValue (f + 1) ('"' :: L) =
      (parseStringBody L).map (fun p => (Js.str (String.mk p.1), p.2)) := rfl

theorem parseValue_lbrack (f : Nat) (L : List Char) :
    parseValue (f + 1) ('[' :: L) =
      (if headIs (skipWs L) ']' then some (.arr [], (skipWs L).tail)
       else
         match parseElems f (skipWs L) with
         | some (xs, r) => some (.arr xs, r)
         | none => none) := rfl

theorem parseValue_lbrace (f : Nat) (L : List Char) :
    parseValue (f + 1) ('{' :: L) =
      (if headIs (skipWs L) '}' then some (.obj [], (skipWs L).tail)
       else
         match parseMembers f (skipWs L) with
         | some (fs, r) => some (.obj fs, r)
         | none => none) := rfl

theorem parseValue_other (f : Nat) (c : Char) (L : List Char)
    (hw : isWs c = false) (h1 : ¬c = '"') (h2 : ¬c = '[') (h3 : ¬c = '{') :
    parseValue (f + 1) (c :: L) = parseLit (c :: L) := by
  simp only [parseValue]
  rw [skipWs_cons c L hw]
  simp only [if_neg h1, if_neg h2, if_neg h3]

/-- Main round-trip statement, by strong induction on the parsing fuel:
with enough fuel, parsing the serialization of a value (an element list,
a member list) consumes exactly the serialization and returns the value,
no matter what legally delimited input follows. -/
theorem roundTripAll (fuel : Nat) :
    (∀ v rest, (stringifyChars v).length ≤ fuel → delimHead rest = true →
      parseValue fuel (stringifyChars v ++ rest) = some (v, rest)) ∧
    (∀ xs rest, xs ≠ [] → (stringifyElems xs).length + 1 ≤ fuel →
      parseElems fuel (stringifyElems xs ++ ']' :: rest) = some (xs, rest)) ∧
    (∀ fs rest, fs ≠ [] → (stringifyFields fs).length + 1 ≤ fuel →
      parseMembers fuel (stringifyFields fs ++ '}' :: rest) = some (fs, rest)) := by
  induction fuel using Nat.strong_induction_on with
  | _ fuel ih =>
    refine ⟨?_, ?_, ?_⟩
    · intro v rest hlen hdelim
      cases v with
      | null =>
        cases fuel with
        | zero => simp [stringifyChars] at hlen
        | succ f => rfl
      | bool b =>
        cases b with
        | true =>
          cases fuel with
          | zero => simp [stringifyChars] at hlen
          | succ f => rfl
        | false =>
          cases fuel with
          | zero => simp [stringifyChars] at hlen
          | succ f => rfl
      | num n =>
        obtain ⟨c, t, hhead, hc⟩ := intToChars_head n
        have hSC : stringifyChars (.num n) = intToChars n := rfl
        cases fuel with
        | zero =>
          rw [hSC, hhead] at hlen
          simp at hlen
        | succ f =>
          have hw : isWs c = false := by
            rcases hc with rfl | hd
            · decide
            · exact digit_not_ws c hd
          have h1 : ¬c = '"' := by
            rcases hc with rfl | hd
            · decide
            · exact digit_ne c '"' hd (by decide)
          have h2 : ¬c = '[' := by
            rcases hc with rfl | hd
            · decide
            · exact digit_ne c '[' hd (by decide)
          have h3 : ¬c = '{' := by
            rcases hc with rfl | hd
            · decide
            · exact digit_ne c '{' hd (by decide)
          rw [hSC, hhead, List.cons_append, parseValue_other f c (t ++ rest) hw h1 h2 h3,
            ← List.cons_append, ← hhead, parseLit_num n rest (delim_not_digit rest hdelim)]
      | str s =>
        cases fuel with
        | zero => simp [stringifyChars] at hlen
        | succ f =>
          have hA : stringifyChars (.str s) ++ rest
              = '"' :: (escapeChars s.data ++ ('"' :: rest)) := by
            simp [stringifyChars]
          rw [hA, parseValue_quote, parseStringBody_escape s.data rest]
          simp [stringMk_data]
      | arr xs =>
        cases xs with
        | nil =>
          cases fuel with
          | zero => simp [stringifyChars] at hlen
          | succ f =>
            have hA : stringifyChars (.arr []) ++ rest = '[' :: (']' :: rest) := by
              simp [stringifyChars, stringifyElems]
            rw [hA, parseValue_lbrack]
            have hskip : skipWs (']' :: rest) = ']' :: rest := rfl
            have hhi : headIs (']' :: rest) ']' = true := rfl
            rw [hskip, hhi, if_pos rfl]
            rfl
        | cons x xs' =>
          obtain ⟨c, t, hE, hwE, hne1, hne2, hne3⟩ := stringifyElems_head x xs'
          cases fuel with
          | zero =>
            have hL : (stringifyChars (.arr (x :: xs'))).length
                = (stringifyElems (x :: xs')).length + 2 := by
              simp [stringifyChars]
            omega
          | succ f =>
            have hA : stringifyChars (.arr (x :: xs')) ++ rest
                = '[' :: (stringifyElems (x :: xs') ++ (']' :: rest)) := by
              simp [stringifyChars]
            rw [hA, parseValue_lbrack]
            have hcons : stringifyElems (x :: xs') ++ (']' :: rest)
                = c :: (t ++ ']' :: rest) := by
              rw [hE]
              simp
            rw [hcons, skipWs_cons c _ hwE]
            have hhi : headIs (c :: (t ++ ']' :: rest)) ']' = false := by
              simp [headIs, hne1]
            rw [hhi, if_neg (by simp)]
            have hlenE : (stringifyElems (x :: xs')).length + 1 ≤ f := by
              have hL : (stringifyChars (.arr (x :: xs'))).length
                  = (stringifyElems (x :: xs')).length + 2 := by
                simp [stringifyChars]
              omega
            rw [← hcons,
              (ih f (Nat.lt_succ_self f)).2.1 (x :: xs') rest (by simp) hlenE]
      | obj fs =>
        cases fs with
        | nil =>
          cases fuel with
          | zero => simp [stringifyChars] at hlen
          | succ f =>
            have hA : stringifyChars (.obj []) ++ rest = '{' :: ('}' :: rest) := by
              simp [stringifyChars, stringifyFields]
            rw [hA, parseValue_lbrace]
            have hskip : skipWs ('}' :: rest) = '}' :: rest := rfl
            have hhi : headIs ('}' :: rest) '}' = true := rfl
            rw [hskip, hhi, if_pos rfl]
            rfl
        | cons g fs' =>
          cases fuel with
          | zero =>
            have hL : (stringifyChars (.obj (g :: fs'))).length
                = (stringifyFields (g :: fs')).length + 2 := by
              simp [stringifyChars]
            omega
          | succ f =>
            have hA : stringifyChars (.obj (g :: fs')) ++ rest
                = '{' :: (stringifyFields (g :: fs') ++ ('}' :: rest)) := by
              simp [stringifyChars]
            rw [hA, parseValue_lbrace]
            obtain ⟨tg, hG⟩ : ∃ tg, stringifyFields (g :: fs') = '"' :: tg := by
              rcases g with ⟨k, v⟩
              cases fs' with
              | nil => exact ⟨_, rfl⟩
              | cons g' gs => exact ⟨_, rfl⟩
            have hcons : stringifyFields (g :: fs') ++ ('}' :: rest)
                = '"' :: (tg ++ '}' :: rest) := by
              rw [hG]
              simp
            rw [hcons, skipWs_cons '"' _ (by decide)]
            have hhi : headIs ('"' :: (tg ++ '}' :: rest)) '}' = false := rfl
            rw [hhi, if_neg (by simp)]
            have hlenF : (stringifyFields (g :: fs')).length + 1 ≤ f := by
              have hL : (stringifyChars (.obj (g :: fs'))).length
                  = (stringifyFields (g :: fs')).length + 2 := by
                simp [stringifyChars]
              omega
            rw [← hcons,
              (ih f (Nat.lt_succ_self f)).2.2 (g :: fs') rest (by simp) hlenF]
    · intro xs rest hne hlenE
      cases xs with
      | nil => exact absurd rfl hne
      | cons x xs' =>
        cases fuel with
        | zero => omega
        | succ f =>
          cases xs' with
          | nil =>
            have hsx : stringifyElems [x] = stringifyChars x := rfl
            have hlenx : (stringifyChars x).length ≤ f := by
              rw [← hsx]
              omega
            simp only [parseElems, hsx]
            rw [(ih f (Nat.lt_succ_self f)).1 x (']' :: rest) hlenx rfl]
            have hskip : skipWs (']' :: rest) = ']' :: rest := rfl
            simp only [hskip]
            have hc1 : headIs (']' :: rest) ',' = false := rfl
            have hc2 : headIs (']' :: rest) ']' = true := rfl
            rw [hc1, hc2]
            simp
          | cons y ys =>
            have hsx : stringifyElems (x :: y :: ys)
                = stringifyChars x ++ ',' :: stringifyElems (y :: ys) := rfl
            have hlens : (stringifyElems (x :: y :: ys)).length
                = (stringifyChars x).length + 1 + (stringifyElems (y :: ys)).length := by
              rw [hsx]
              simp
              omega
            have hassoc : stringifyElems (x :: y :: ys) ++ ']' :: rest
                = stringifyChars x ++ (',' :: (stringifyElems (y :: ys) ++ ']' :: rest)) := by
              rw [hsx]
              simp
            simp only [parseElems]
            rw [hassoc,
              (ih f (Nat.lt_succ_self f)).1 x (',' :: (stringifyElems (y :: ys) ++ ']' :: rest))
                (by omega) rfl]
            have hskip : skipWs (',' :: (stringifyElems (y :: ys) ++ ']' :: rest))
                = ',' :: (stringifyElems (y :: ys) ++ ']' :: rest) := rfl
            simp only [hskip]
            have hc1 : headIs (',' :: (stringifyElems (y :: ys) ++ ']' :: rest)) ',' = true := rfl
            rw [hc1]
            simp only [if_pos rfl, List.tail_cons]
            rw [(ih f (Nat.lt_succ_self f)).2.1 (y :: ys) rest (by simp) (by omega)]
            rfl
    · intro fs rest hne hlenF
      cases fs with
      | nil => exact absurd rfl hne
      | cons g fs' =>
        rcases g with ⟨k, v⟩
        cases fuel with
        | zero => omega
        | succ f =>
          cases fs' with
          | nil =>
            have hsf : stringifyFields [(k, v)]
                = '"' :: (escapeChars k.data ++ '"' :: ':' :: stringifyChars v) := rfl
            have hlenv : (stringifyChars v).length ≤ f := by
              have : (stringifyFields [(k, v)]).length
                  = (escapeChars k.data).length + (stringifyChars v).length + 3 := by
                rw [hsf]
                simp
                omega
              omega
            have hassoc : stringifyFields [(k, v)] ++ '}' :: rest
                = '"' :: (escapeChars k.data ++ ('"' :: (':' :: (stringifyChars v ++ '}' :: rest)))) := by
              rw [hsf]
              simp
            rw [hassoc]
            simp only [parseMembers]
            have hskip : skipWs ('"' :: (escapeChars k.data ++ ('"' :: (':' :: (stringifyChars v ++ '}' :: rest)))))
                = '"' :: (escapeChars k.data ++ ('"' :: (':' :: (stringifyChars v ++ '}' :: rest)))) := rfl
            rw [hskip]
            have hhi : headIs ('"' :: (escapeChars k.data ++ ('"' :: (':' :: (stringifyChars v ++ '}' :: rest))))) '"' = true := rfl
            rw [hhi]
            simp only [if_pos rfl, List.tail_cons]
            rw [parseStringBody_escape k.data (':' :: (stringifyChars v ++ '}' :: rest))]
            have hskip2 : skipWs (':' :: (stringifyChars v ++ '}' :: rest))
                = ':' :: (stringifyChars v ++ '}' :: rest) := rfl
            have hc2 : headIs (':' :: (stringifyChars v ++ '}' :: rest)) ':' = true := rfl
            simp only [hskip2, hc2, if_pos rfl, List.tail_cons]
            rw [(ih f (Nat.lt_succ_self f)).1 v ('}' :: rest) hlenv rfl]
            have hskip3 : skipWs ('}' :: rest) = '}' :: rest := rfl
            have hc3 : headIs ('}' :: rest) ',' = false := rfl
            have hc4 : headIs ('}' :: rest) '}' = true := rfl
            simp only [hskip3, hc3, hc4]
            simp [stringMk_data]
          | cons g' gs =>
            have hsf : stringifyFields ((k, v) :: g' :: gs)
                = '"' :: ((escapeChars k.data ++ '"' :: ':' :: stringifyChars v)
                    ++ ',' :: stringifyFields (g' :: gs)) := rfl
            have hlens : (stringifyFields ((k, v) :: g' :: gs)).length
                = (escapeChars k.data).length + (stringifyChars v).length + 4
                    + (stringifyFields (g' :: gs)).length := by
              rw [hsf]
              simp
              omega
            have hassoc : stringifyFields ((k, v) :: g' :: gs) ++ '}' :: rest
                = '"' :: (escapeChars k.data ++ ('"' :: (':' :: (stringifyChars v
                    ++ (',' :: (stringifyFields (g' :: gs) ++ '}' :: rest)))))) := by
              rw [hsf]
              simp
            rw [hassoc]
            simp only [parseMembers]
            have hskip : skipWs ('"' :: (escapeChars k.data ++ ('"' :: (':' :: (stringifyChars v ++ (',' :: (stringifyFields (g' :: gs) ++ '}' :: rest)))))))
                = '"' :: (escapeChars k.data ++ ('"' :: (':' :: (stringifyChars v ++ (',' :: (stringifyFields (g' :: gs) ++ '}' :: rest)))))) := rfl
            rw [hskip]
            have hhi : headIs ('"' :: (escapeChars k.data ++ ('"' :: (':' :: (stringifyChars v ++ (',' :: (stringifyFields (g' :: gs) ++ '}' :: rest))))))) '"' = true := rfl
            rw [hhi]
            simp only [if_pos rfl, List.tail_cons]
            rw [parseStringBody_escape k.data
              (':' :: (stringifyChars v ++ (',' :: (stringifyFields (g' :: gs) ++ '}' :: rest))))]
            have hskip2 : skipWs (':' :: (stringifyChars v ++ (',' :: (stringifyFields (g' :: gs) ++ '}' :: rest))))
                = ':' :: (stringifyChars v ++ (',' :: (stringifyFields (g' :: gs) ++ '}' :: rest))) := rfl
            have hc2 : headIs (':' :: (stringifyChars v ++ (',' :: (stringifyFields (g' :: gs) ++ '}' :: rest)))) ':' = true := rfl
            simp only [hskip2, hc2, if_pos rfl, List.tail_cons]
            rw [(ih f (Nat.lt_succ_self f)).1 v
              (',' :: (stringifyFields (g' :: gs) ++ '}' :: rest)) (by omega) rfl]
            have hskip3 : skipWs (',' :: (stringifyFields (g' :: gs) ++ '}' :: rest))
                = ',' :: (stringifyFields (g' :: gs) ++ '}' :: rest) := rfl
            have hc3 : headIs (',' :: (stringifyFields (g' :: gs) ++ '}' :: rest)) ',' = true := rfl
            simp only [hskip3, hc3, if_pos rfl, List.tail_cons]
            rw [(ih f (Nat.lt_succ_self f)).2.2 (g' :: gs) rest (by simp) (by omega)]
            simp [stringMk_data]

/-- Parsing the full serialization of any value yields the value back. -/
theorem jsonParse_stringify (v : Js) : jsonParse (jsonStringify v) = some v := by
  have hdata : (jsonStringify v).data = stringifyChars v := rfl
  have hlen : (jsonStringify v).length = (stringifyChars v).length := rfl
  rw [jsonParse, hdata, hlen]
  have h := (roundTripAll ((stringifyChars v).length + 1)).1 v [] (by omega) rfl
  rw [List.append_nil] at h
  rw [h]
  rfl

/-! ## Facts about the storage and cycle model -/

theorem updateStorage_faults (srv : Server) (faults : List Bool) (key : String)
    (value : Js) (version : Option Nat) :
    (updateStorage srv faults key value version).faults = faults.tail := by
  rw [updateStorage]
  split
  · rfl
  · split <;> rfl

theorem updateStorage_events (srv : Server) (faults : List Bool) (key : String)
    (value : Js) (version : Option Nat) :
    (updateStorage srv faults key value version).events
      = [.putReq key (putPayload value) (normVersion version),
         match (updateStorage srv faults key value version).result with
         | some w => .putOk key w
         | none => .putFail key] := by
  rw [updateStorage]
  split
  · rfl
  · split <;> rfl

theorem serverPut_bot_inbox_of_queue (srv : Server) (p : String) (e : Option Nat) :
    (serverPut srv "music_queue" p e).1.bot_inbox = srv.bot_inbox := by
  rw [serverPut.eq_def]
  split
  · rfl
  · rw [serverGetSlot]
    simp only [if_neg (by decide : ¬("music_queue" : String) = "bot_inbox"), if_pos rfl]
    split
    · split
      · rfl
      · rfl
    · rfl

theorem updateStorage_bot_inbox_of_queue (srv : Server) (faults : List Bool)
    (value : Js) (version : Option Nat) :
    (updateStorage srv faults "music_queue" value version).srv.bot_inbox
      = srv.bot_inbox := by
  rw [updateStorage]
  split
  · rfl
  · split
    next srv' v heq =>
      have hfst := congrArg Prod.fst heq
      simp only at hfst
      show srv'.bot_inbox = srv.bot_inbox
      rw [← hfst, serverPut_bot_inbox_of_queue]
    next srv' heq =>
      have hfst := congrArg Prod.fst heq
      simp only at hfst
      show srv'.bot_inbox = srv.bot_inbox
      rw [← hfst, serverPut_bot_inbox_of_queue]

theorem serverPut_inbox_keeps_empty (srv : Server) (p : String) (e : Option Nat)
    (w : Nat) (h : srv.bot_inbox = some ("", w)) (hp : p = "") :
    (serverPut srv "bot_inbox" p e).1.bot_inbox.map Prod.fst = some "" := by
  subst hp
  rw [serverPut.eq_def]
  cases e with
  | none => simp [serverGetSlot, serverSetSlot, h]
  | some v =>
    simp only [serverGetSlot, if_pos rfl, h]
    by_cases hw : w = v
    · simp [hw, serverSetSlot]
    · simp [hw, h]

/-- A `PUT` of the empty string to an inbox that already holds the empty
string leaves the empty string there, whatever the expected version and
faults do. -/
theorem updateStorage_inbox_keeps_empty (srv : Server) (faults : List Bool)
    (version : Option Nat) (w : Nat) (h : srv.bot_inbox = some ("", w)) :
    (updateStorage srv faults "bot_inbox" (.str "") version).srv.bot_inbox.map Prod.fst
      = some "" := by
  rw [updateStorage]
  split
  · simp [h]
  · split
    next srv' v heq =>
      have hfst := congrArg Prod.fst heq
      simp only at hfst
      show srv'.bot_inbox.map Prod.fst = some ""
      rw [← hfst]
      exact serverPut_inbox_keeps_empty srv _ _ w h rfl
    next srv' heq =>
      have hfst := congrArg Prod.fst heq
      simp only at hfst
      show srv'.bot_inbox.map Prod.fst = some ""
      rw [← hfst]
      exact serverPut_inbox_keeps_empty srv _ _ w h rfl

theorem updateStorage_fault (srv : Server) (faults : List Bool) (key : String)
    (value : Js) (version : Option Nat) (h : faults.headD false = true) :
    updateStorage srv faults key value version
      = ⟨srv, faults.tail,
         [.putReq key (putPayload value) (normVersion version), .putFail key], none⟩ := by
  cases faults with
  | nil => exact absurd h (by decide)
  | cons b bs =>
    have hb : b = true := h
    subst hb
    rfl

/-- With no injected fault, clearing the inbox with the version just
fetched from the server always succeeds and leaves `("", vi + 1)`. -/
theorem updateStorage_clear_succeeds (srv : Server) (faults : List Bool)
    (s : String) (vi : Nat) (hin : srv.bot_inbox = some (s, vi))
    (hf : faults.headD false = false) :
    updateStorage srv faults "bot_inbox" (.str "") (some vi)
      = ⟨{ srv with bot_inbox := some ("", vi + 1) }, faults.tail,
         [.putReq "bot_inbox" "" (normVersion (some vi)), .putOk "bot_inbox" (vi + 1)],
         some (vi + 1)⟩ := by
  cases faults with
  | nil =>
    rw [updateStorage]
    by_cases hvi : vi = 0
    · subst hvi
      simp [normVersion, serverPut, serverGetSlot, serverSetSlot, hin, putPayload]
    · simp [normVersion, hvi, serverPut, serverGetSlot, serverSetSlot, hin, putPayload]
  | cons b bs =>
    have hb : b = false := hf
    subst hb
    rw [updateStorage]
    by_cases hvi : vi = 0
    · subst hvi
      simp [normVersion, serverPut, serverGetSlot, serverSetSlot, hin, putPayload]
    · simp [normVersion, hvi, serverPut, serverGetSlot, serverSetSlot, hin, putPayload]

theorem playbackExpiry_skip (srv : Server) (faults : List Bool) (st : LocalState)
    (queueObj : Option StoredObj) (now : Int)
    (h : (st.isPlaying && deadlineReached st.playingUntil now) = false) :
    playbackExpiry srv faults st queueObj now = ⟨srv, faults, st, queueObj, []⟩ := by
  rw [playbackExpiry]
  simp [h]

theorem playbackExpiry_state (srv : Server) (faults : List Bool) (st : LocalState)
    (queueObj : Option StoredObj) (now : Int)
    (h : (st.isPlaying && deadlineReached st.playingUntil now) = true) :
    (playbackExpiry srv faults st queueObj now).st
      = { st with
          isPlaying := false
          currentSong := none
          musicQueue := st.musicQueue.tail } := by
  rw [playbackExpiry]
  simp only [h, if_true]
  split <;> rfl

theorem playbackExpiry_events (srv : Server) (faults : List Bool) (st : LocalState)
    (queueObj : Option StoredObj) (now : Int)
    (h : (st.isPlaying && deadlineReached st.playingUntil now) = true) :
    (playbackExpiry srv faults st queueObj now).events
      = [.songFinished, .pop]
        ++ (updateStorage srv faults "music_queue"
              (.arr st.musicQueue.tail) (metaVersion queueObj)).events := by
  rw [playbackExpiry]
  simp only [h, if_true]
  split <;> rfl

theorem playbackPromote_queue (st : LocalState) (now : Int) :
    (playbackPromote st now).1.musicQueue = st.musicQueue := by
  rw [playbackPromote]
  split
  · rfl
  · split <;> rfl

theorem playbackPromote_tags (st : LocalState) (now : Int) :
    ∀ e ∈ (playbackPromote st now).2, tagOf e = ETag.tPromote := by
  rw [playbackPromote]
  split
  · simp
  · split
    · simp
    · intro e he
      rcases List.mem_singleton.mp he with rfl
      rfl

theorem playbackPromote_playing (st : LocalState) (now : Int)
    (h : st.isPlaying = true) : playbackPromote st now = (st, []) := by
  rw [playbackPromote]
  simp [h]

theorem playbackPromote_idle_cons (st : LocalState) (now : Int) (song : Js)
    (tl : List Js) (h : st.isPlaying = false) (hq : st.musicQueue = song :: tl) :
    playbackPromote st now
      = ({ st with
           currentSong := some song
           isPlaying := true
           playingUntil := match durationMs song with
             | some d => some (now + d)
             | none => none },
         [.promote song]) := by
  rw [playbackPromote]
  simp [h, hq]

theorem playbackPromote_idle_nil (st : LocalState) (now : Int)
    (h : st.isPlaying = false) (hq : st.musicQueue = []) :
    playbackPromote st now = (st, []) := by
  rw [playbackPromote]
  simp [h, hq]

theorem processInbox_skip (srv : Server) (faults : List Bool) (st : LocalState)
    (inboxData queueObj : Option StoredObj)
    (h : inboxNonEmpty (inboxValueOf inboxData) = false) :
    processInbox srv faults st inboxData queueObj
      = ⟨srv, faults, st, queueObj, []⟩ := by
  rw [processInbox]
  simp [h]

/-- Inbox processing never touches the scheduler fields and only ever
appends to the queue. -/
theorem processInbox_state (srv : Server) (faults : List Bool) (st : LocalState)
    (inboxData queueObj : Option StoredObj) :
    (processInbox srv faults st inboxData queueObj).st.isPlaying = st.isPlaying ∧
    (processInbox srv faults st inboxData queueObj).st.playingUntil = st.playingUntil ∧
    (processInbox srv faults st inboxData queueObj).st.currentSong = st.currentSong ∧
    ∃ t, (processInbox srv faults st inboxData queueObj).st.musicQueue
      = st.musicQueue ++ t := by
  rw [processInbox]
  by_cases hne : inboxNonEmpty (inboxValueOf inboxData) = true
  · simp only [hne, if_true]
    split
    · exact ⟨rfl, rfl, rfl, [], by simp⟩
    · split
      · exact ⟨rfl, rfl, rfl, [], by simp⟩
      · rcases queueObj with _ | d
        · split
          · exact ⟨rfl, rfl, rfl, _, rfl⟩
          · exact ⟨rfl, rfl, rfl, _, rfl⟩
        · split
          · exact ⟨rfl, rfl, rfl, _, rfl⟩
          · exact ⟨rfl, rfl, rfl, _, rfl⟩
  · rw [if_neg hne]
    exact ⟨rfl, rfl, rfl, [], by simp⟩

theorem updateStorage_events_kind (srv : Server) (faults : List Bool) (key : String)
    (value : Js) (version : Option Nat) :
    ∀ e ∈ (updateStorage srv faults key value version).events,
      inboxKind e = true ∧ expiryKind e = true ∧ isGetReq e = false := by
  rw [updateStorage_events]
  intro e he
  simp only [List.mem_cons, List.mem_singleton, List.not_mem_nil, or_false] at he
  rcases he with rfl | rfl
  · exact ⟨rfl, rfl, rfl⟩
  · cases (updateStorage srv faults key value version).result <;>
      exact ⟨rfl, rfl, rfl⟩

/-- Every event of inbox processing is an inbox-phase event. -/
theorem processInbox_events_kind (srv : Server) (faults : List Bool) (st : LocalState)
    (inboxData queueObj : Option StoredObj) :
    ∀ e ∈ (processInbox srv faults st inboxData queueObj).events,
      inboxKind e = true ∧ isGetReq e = false := by
  have hput : ∀ (srv₀ : Server) (f₀ : List Bool) (k₀ : String) (v₀ : Js) (ver₀ : Option Nat)
      (e : Event), e ∈ (updateStorage srv₀ f₀ k₀ v₀ ver₀).events →
      inboxKind e = true ∧ isGetReq e = false :=
    fun srv₀ f₀ k₀ v₀ ver₀ e h =>
      ⟨(updateStorage_events_kind srv₀ f₀ k₀ v₀ ver₀ e h).1,
       (updateStorage_events_kind srv₀ f₀ k₀ v₀ ver₀ e h).2.2⟩
  rw [processInbox]
  by_cases hne : inboxNonEmpty (inboxValueOf inboxData) = true
  · simp only [hne, if_true]
    split
    · intro e he
      rcases List.mem_append.mp he with h | h
      · exact hput _ _ _ _ _ e h
      · exact hput _ _ _ _ _ e h
    · split
      · intro e he
        rcases List.mem_append.mp he with h | h
        · exact hput _ _ _ _ _ e h
        · exact hput _ _ _ _ _ e h
      · rcases queueObj with _ | d
        all_goals
          split
          · intro e he
            rcases List.mem_append.mp he with h | h
            · rcases List.mem_append.mp h with h' | h'
              · exact hput _ _ _ _ _ e h'
              · simp only [List.mem_cons, List.mem_singleton, List.not_mem_nil, or_false] at h'
                rcases h' with rfl | rfl
                · exact ⟨rfl, rfl⟩
                · exact ⟨rfl, rfl⟩
            · exact hput _ _ _ _ _ e h
          · intro e he
            rcases List.mem_append.mp he with h | h
            · rcases List.mem_append.mp h with h' | h'
              · rcases List.mem_append.mp h' with h'' | h''
                · exact hput _ _ _ _ _ e h''
                · simp only [List.mem_cons, List.mem_singleton, List.not_mem_nil, or_false] at h''
                  rcases h'' with rfl | rfl
                  · exact ⟨rfl, rfl⟩
                  · exact ⟨rfl, rfl⟩
              · exact hput _ _ _ _ _ e h'
            · exact hput _ _ _ _ _ e h
  · simp only [Bool.not_eq_true] at hne
    simp only [hne, Bool.false_eq_true, if_false]
    intro e he
    simp at he

/-- Every event of the expiry phase is an expiry-phase event. -/
theorem playbackExpiry_events_kind (srv : Server) (faults : List Bool) (st : LocalState)
    (queueObj : Option StoredObj) (now : Int) :
    ∀ e ∈ (playbackExpiry srv faults st queueObj now).events,
      expiryKind e = true ∧ isGetReq e = false := by
  by_cases h : (st.isPlaying && deadlineReached st.playingUntil now) = true
  · rw [playbackExpiry_events srv faults st queueObj now h]
    intro e he
    rcases List.mem_append.mp he with h' | h'
    · simp only [List.mem_cons, List.mem_singleton, List.not_mem_nil, or_false] at h'
      rcases h' with rfl | rfl
      · exact ⟨rfl, rfl⟩
      · exact ⟨rfl, rfl⟩
    · exact ⟨(updateStorage_events_kind _ _ _ _ _ e h').2.1,
        (updateStorage_events_kind _ _ _ _ _ e h').2.2⟩
  · rw [playbackExpiry_skip srv faults st queueObj now (by simpa using h)]
    intro e he
    simp at he

/-- `runCycle` is literally the three phases in order after the two
fetches; its event trace is their concatenation. -/
theorem runCycle_decomp (srv : Server) (faults : List Bool) (st : LocalState) (now : Int) :
    runCycle srv faults st now
      = { srv := (playbackExpiry
            (processInbox srv faults st (serverGet srv "bot_inbox") (serverGet srv "music_queue")).srv
            (processInbox srv faults st (serverGet srv "bot_inbox") (serverGet srv "music_queue")).faults
            (processInbox srv faults st (serverGet srv "bot_inbox") (serverGet srv "music_queue")).st
            (processInbox srv faults st (serverGet srv "bot_inbox") (serverGet srv "music_queue")).queueObj
            now).srv
          st := (playbackPromote
            (playbackExpiry
              (processInbox srv faults st (serverGet srv "bot_inbox") (serverGet srv "music_queue")).srv
              (processInbox srv faults st (serverGet srv "bot_inbox") (serverGet srv "music_queue")).faults
              (processInbox srv faults st (serverGet srv "bot_inbox") (serverGet srv "music_queue")).st
              (processInbox srv faults st (serverGet srv "bot_inbox") (serverGet srv "music_queue")).queueObj
              now).st now).1
          events := [.getReq "bot_inbox", .getReq "music_queue"]
            ++ (processInbox srv faults st (serverGet srv "bot_inbox") (serverGet srv "music_queue")).events
            ++ (playbackExpiry
                (processInbox srv faults st (serverGet srv "bot_inbox") (serverGet srv "music_queue")).srv
                (processInbox srv faults st (serverGet srv "bot_inbox") (serverGet srv "music_queue")).faults
                (processInbox srv faults st (serverGet srv "bot_inbox") (serverGet srv "music_queue")).st
                (processInbox srv faults st (serverGet srv "bot_inbox") (serverGet srv "music_queue")).queueObj
                now).events
            ++ (playbackPromote
                (playbackExpiry
                  (processInbox srv faults st (serverGet srv "bot_inbox") (serverGet srv "music_queue")).srv
                  (processInbox srv faults st (serverGet srv "bot_inbox") (serverGet srv "music_queue")).faults
                  (processInbox srv faults st (serverGet srv "bot_inbox") (serverGet srv "music_queue")).st
                  (processInbox srv faults st (serverGet srv "bot_inbox") (serverGet srv "music_queue")).queueObj
                  now).st now).2 } := rfl

/-! ## Claims -/

theorem decodeRequest_str (s : String) :
    decodeRequest (.str s)
      = (match (match jsonParse s with
                | some r => r
                | none => fallbackRequest s) with
         | .str s' =>
           (match jsonParse s' with
            | some r => r
            | none => fallbackRequest s')
         | r => r) := rfl

/-- C8: when loading the queue from the remote object, an absent object,
an empty stored value, or a value that fails to parse (the `JSON.parse`
exception is caught at `src/index.js` line 143) all yield the empty
in-memory queue; `restoreQueue` is a total function, so the load never
raises an error. -/
theorem claim8_load_never_fails :
    restoreQueue none = [] ∧
    (∀ m, restoreQueue (some { value := "", metadata := m }) = []) ∧
    (∀ s m, jsonParse s = none →
      restoreQueue (some { value := s, metadata := m }) = []) := by
  refine ⟨rfl, fun m => rfl, fun s m h => ?_⟩
  rw [restoreQueue]
  by_cases hs : s = ""
  · subst hs
    simp
  · rw [if_pos hs, h]

theorem claim8_witness :
    restoreQueue (some { value := "certainly not json", metadata := none }) = [] :=
  claim8_load_never_fails.2.2 "certainly not json" none rfl

/-- C10: a stored value that parses successfully to a non-array is
silently ignored (`Array.isArray` guard, `src/index.js` line 138) and the
in-memory queue stays empty; a parsed array is adopted wholesale, so
after initialization the queue is always the list of restored entries. -/
theorem claim10_non_array_ignored :
    (∀ s m v, jsonParse s = some v → (∀ xs, v ≠ Js.arr xs) →
      restoreQueue (some { value := s, metadata := m }) = []) ∧
    (∀ s m xs, jsonParse s = some (.arr xs) →
      restoreQueue (some { value := s, metadata := m }) = xs) := by
  have hne : ∀ (s : String) (v : Js), jsonParse s = some v → ¬(s = "") := by
    intro s v hp h
    subst h
    rw [show jsonParse "" = none from rfl] at hp
    exact Option.noConfusion hp
  constructor
  · intro s m v hp hv
    rw [restoreQueue, if_pos (hne s v hp), hp]
    cases v with
    | arr xs => exact absurd rfl (hv xs)
    | null => rfl
    | bool b => rfl
    | num n => rfl
    | str t => rfl
    | obj fs => rfl
  · intro s m xs hp
    rw [restoreQueue, if_pos (hne s _ hp), hp]

theorem claim10_witness :
    restoreQueue (some { value := "\x7b\"queue\":[]\x7d", metadata := none }) = [] :=
  claim10_non_array_ignored.1 _ none (.obj [("queue", .arr [])]) rfl
    (fun _ h => Js.noConfusion h)

/-- C4: the request decoder's ordered fallback chain, as implemented at
`src/index.js` lines 161–187: an empty inbox value fails the guard and is
never decoded; a value parsing to a non-string is used directly; a value
parsing to a string is parsed a second time (double-encoding), falling
back to the raw-query object on that inner string; and when the parse
fails the raw string becomes the `query` field with `user = "Unknown"`
and empty requester id — so a non-empty request is never dropped.  (The
spec spells the identity key `userId`; the source field is `userid`.) -/
theorem claim4_decoder_chain :
    (inboxNonEmpty (.str "") = false) ∧
    (∀ s o, jsonParse s = some o → (∀ t, o ≠ .str t) →
      decodeRequest (.str s) = o) ∧
    (∀ s t, jsonParse s = some (.str t) →
      decodeRequest (.str s)
        = (match jsonParse t with
           | some r => r
           | none => fallbackRequest t)) ∧
    (∀ s, jsonParse s = none → decodeRequest (.str s) = fallbackRequest s) ∧
    (decodeRequest (.str "just text")
      = .obj [("query", .str "just text"), ("user", .str "Unknown"),
              ("userid", .str "")]) := by
  refine ⟨rfl, ?_, ?_, ?_, rfl⟩
  · intro s o hp ho
    rw [decodeRequest_str, hp]
    cases o with
    | str t => exact absurd rfl (ho t)
    | null => rfl
    | bool b => rfl
    | num n => rfl
    | arr xs => rfl
    | obj fs => rfl
  · intro s t hp
    rw [decodeRequest_str, hp]
  · intro s hp
    rw [decodeRequest_str, hp]
    rfl

theorem claim4_witness :
    decodeRequest (.str "\"\x7b\\\"query\\\":\\\"x\\\"\x7d\"")
      = .obj [("query", .str "x")] := by
  rw [claim4_decoder_chain.2.2.1 "\"\x7b\\\"query\\\":\\\"x\\\"\x7d\""
    "\x7b\"query\":\"x\"\x7d" (by rfl)]
  rfl

/-- C5 counterexample: no transport envelope exists in the code.  The
queue payload actually written is the bare serialization (first conjunct:
`updateStorage`'s payload for the queue array is `JSON.stringify` output
with no prefix or suffix attached), and a value that does arrive wrapped
in a fixed literal prefix/suffix envelope is not stripped and re-parsed
on read — the load silently produces the empty queue instead of the
enveloped queue `[Js.str "song"]` (second and third conjuncts), refuting
"the envelope is stripped on read". -/
theorem claim5_counterexample :
    putPayload (Js.arr [Js.str "song"]) = "[\"song\"]" ∧
    restoreQueue (some { value := "--[[" ++ "[\"song\"]" ++ "]]--", metadata := some { version := some 1 } }) = [] ∧
    ([Js.str "song"] : List Js) ≠ [] := by
  refine ⟨rfl, rfl, by simp⟩

/-- C5 amended: the wrap and strip of the claimed envelope are both the
identity — the queue value written to remote storage is exactly
`JSON.stringify` of the queue, so `strip (wrap (serialize Q)) =
serialize Q` holds trivially, and a queue value written by one process
instance is parsed back to the same queue by another instance's load. -/
theorem claim5_amended (Q : List Js) (m : Option Meta) :
    putPayload (.arr Q) = jsonStringify (.arr Q) ∧
    restoreQueue (some { value := jsonStringify (.arr Q), metadata := m }) = Q := by
  constructor
  · rfl
  · have hne : ¬(jsonStringify (.arr Q) = "") := by
      intro h
      exact List.noConfusion (congrArg String.data h)
    rw [restoreQueue, if_pos hne, jsonParse_stringify (.arr Q)]

/-- C9: within one poll cycle the event trace is exactly the two fetches,
then inbox-phase events, then deadline-expiry events, then promotion
events, in that order; moreover inbox processing leaves `isPlaying` and
`playingUntil` — the inputs of the deadline check — untouched, so a song
appended in a cycle cannot short-circuit that cycle's deadline check. -/
theorem claim9_phase_order (srv : Server) (faults : List Bool) (st : LocalState)
    (now : Int) :
    ∃ a b c,
      (runCycle srv faults st now).events
        = [.getReq "bot_inbox", .getReq "music_queue"] ++ a ++ b ++ c ∧
      (∀ e ∈ a, inboxKind e = true) ∧
      (∀ e ∈ b, expiryKind e = true) ∧
      (∀ e ∈ c, tagOf e = ETag.tPromote) ∧
      (processInbox srv faults st (serverGet srv "bot_inbox")
        (serverGet srv "music_queue")).st.isPlaying = st.isPlaying ∧
      (processInbox srv faults st (serverGet srv "bot_inbox")
        (serverGet srv "music_queue")).st.playingUntil = st.playingUntil := by
  refine ⟨_, _, _, rfl, ?_, ?_, ?_, ?_, ?_⟩
  · exact fun e he => (processInbox_events_kind srv faults st _ _ e he).1
  · exact fun e he => (playbackExpiry_events_kind _ _ _ _ now e he).1
  · exact playbackPromote_tags _ now
  · exact (processInbox_state srv faults st _ _).1
  · exact (processInbox_state srv faults st _ _).2.1

theorem playbackPromote_events_cases (st : LocalState) (now : Int) :
    (playbackPromote st now).2 = []
    ∨ ∃ song, (playbackPromote st now).2 = [.promote song] := by
  rw [playbackPromote]
  split
  · exact Or.inl rfl
  · split
    · exact Or.inl rfl
    · exact Or.inr ⟨_, rfl⟩

/-- Events which are all inbox-phase events contribute no `pop` or
`promote` tag. -/
theorem filter_pp_of_inboxKind (l : List Event)
    (h : ∀ e ∈ l, inboxKind e = true) :
    (l.map tagOf).filter (fun t => t == ETag.tPop || t == ETag.tPromote) = [] := by
  induction l with
  | nil => rfl
  | cons e l ih =>
    have he := h e (List.mem_cons_self e l)
    have hl := ih (fun x hx => h x (List.mem_cons_of_mem e hx))
    simp only [List.map_cons, List.filter_cons]
    cases ht : tagOf e with
    | tGet => exact absurd he (by simp [inboxKind, ht])
    | tFinished => exact absurd he (by simp [inboxKind, ht])
    | tPop => exact absurd he (by simp [inboxKind, ht])
    | tPromote => exact absurd he (by simp [inboxKind, ht])
    | tPutReq => simpa using hl
    | tPutOk => simpa using hl
    | tPutFail => simpa using hl
    | tResolve => simpa using hl
    | tAppend => simpa using hl


/-- C7 counterexample: in the cycle polled at `now = 100` with a Playing
state whose deadline 100 has arrived and a two-entry queue, the trace
contains BOTH the pop of the finished head and the promotion of the next
head — one cycle performs both transitions, refuting "a cycle never
performs both the Playing-to-Idle transition and the Idle-to-Playing
transition". -/
theorem claim7_counterexample :
    (((runCycle srvC7 [] stC7 100).events.map tagOf).filter
      (fun t => t == ETag.tPop || t == ETag.tPromote))
      = [ETag.tPop, ETag.tPromote] := by rfl

/-- C7 amended: in every single poll cycle the playback state machine
performs at most one pop and at most one promotion, and a promotion never
precedes a pop — but when a deadline expires with a non-empty remaining
queue, the same cycle performs the pop and then immediately the
promotion of the next head (no idle cycle in between). -/
theorem claim7_amended (srv : Server) (faults : List Bool) (st : LocalState)
    (now : Int) :
    (((runCycle srv faults st now).events.map tagOf).filter
        (fun t => t == ETag.tPop || t == ETag.tPromote)) = []
    ∨ (((runCycle srv faults st now).events.map tagOf).filter
        (fun t => t == ETag.tPop || t == ETag.tPromote)) = [ETag.tPop]
    ∨ (((runCycle srv faults st now).events.map tagOf).filter
        (fun t => t == ETag.tPop || t == ETag.tPromote)) = [ETag.tPromote]
    ∨ (((runCycle srv faults st now).events.map tagOf).filter
        (fun t => t == ETag.tPop || t == ETag.tPromote)) = [ETag.tPop, ETag.tPromote] := by
  have hev : (runCycle srv faults st now).events
      = [Event.getReq "bot_inbox", Event.getReq "music_queue"]
        ++ (processInbox srv faults st (serverGet srv "bot_inbox")
              (serverGet srv "music_queue")).events
        ++ (playbackExpiry
              (processInbox srv faults st (serverGet srv "bot_inbox")
                (serverGet srv "music_queue")).srv
              (processInbox srv faults st (serverGet srv "bot_inbox")
                (serverGet srv "music_queue")).faults
              (processInbox srv faults st (serverGet srv "bot_inbox")
                (serverGet srv "music_queue")).st
              (processInbox srv faults st (serverGet srv "bot_inbox")
                (serverGet srv "music_queue")).queueObj
              now).events
        ++ (playbackPromote
              (playbackExpiry
                (processInbox srv faults st (serverGet srv "bot_inbox")
                  (serverGet srv "music_queue")).srv
                (processInbox srv faults st (serverGet srv "bot_inbox")
                  (serverGet srv "music_queue")).faults
                (processInbox srv faults st (serverGet srv "bot_inbox")
                  (serverGet srv "music_queue")).st
                (processInbox srv faults st (serverGet srv "bot_inbox")
                  (serverGet srv "music_queue")).queueObj
                now).st now).2 := rfl
  rw [hev]
  simp only [List.map_append, List.filter_append]
  rw [show (([Event.getReq "bot_inbox", Event.getReq "music_queue"].map tagOf).filter
      (fun t => t == ETag.tPop || t == ETag.tPromote)) = [] from rfl]
  rw [filter_pp_of_inboxKind _
    (fun e he => (processInbox_events_kind srv faults st _ _ e he).1)]
  have hb : (((playbackExpiry
        (processInbox srv faults st (serverGet srv "bot_inbox")
          (serverGet srv "music_queue")).srv
        (processInbox srv faults st (serverGet srv "bot_inbox")
          (serverGet srv "music_queue")).faults
        (processInbox srv faults st (serverGet srv "bot_inbox")
          (serverGet srv "music_queue")).st
        (processInbox srv faults st (serverGet srv "bot_inbox")
          (serverGet srv "music_queue")).queueObj
        now).events.map tagOf).filter
          (fun t => t == ETag.tPop || t == ETag.tPromote)) = []
      ∨ (((playbackExpiry
        (processInbox srv faults st (serverGet srv "bot_inbox")
          (serverGet srv "music_queue")).srv
        (processInbox srv faults st (serverGet srv "bot_inbox")
          (serverGet srv "music_queue")).faults
        (processInbox srv faults st (serverGet srv "bot_inbox")
          (serverGet srv "music_queue")).st
        (processInbox srv faults st (serverGet srv "bot_inbox")
          (serverGet srv "music_queue")).queueObj
        now).events.map tagOf).filter
          (fun t => t == ETag.tPop || t == ETag.tPromote)) = [ETag.tPop] := by
    by_cases hx : ((processInbox srv faults st (serverGet srv "bot_inbox")
        (serverGet srv "music_queue")).st.isPlaying
          && deadlineReached (processInbox srv faults st (serverGet srv "bot_inbox")
            (serverGet srv "music_queue")).st.playingUntil now) = true
    · rw [playbackExpiry_events _ _ _ _ now hx]
      rw [List.map_append, List.filter_append]
      rw [filter_pp_of_inboxKind _
        (fun e he => (updateStorage_events_kind _ _ _ _ _ e he).1)]
      exact Or.inr rfl
    · rw [playbackExpiry_skip _ _ _ _ now (by simpa using hx)]
      exact Or.inl rfl
  have hc := playbackPromote_events_cases
    (playbackExpiry
      (processInbox srv faults st (serverGet srv "bot_inbox")
        (serverGet srv "music_queue")).srv
      (processInbox srv faults st (serverGet srv "bot_inbox")
        (serverGet srv "music_queue")).faults
      (processInbox srv faults st (serverGet srv "bot_inbox")
        (serverGet srv "music_queue")).st
      (processInbox srv faults st (serverGet srv "bot_inbox")
        (serverGet srv "music_queue")).queueObj
      now).st now
  rcases hb with hb | hb <;> rw [hb] <;> rcases hc with hc | ⟨song, hc⟩ <;> rw [hc]
  · exact Or.inl rfl
  · exact Or.inr (Or.inr (Or.inl (by simp [tagOf])))
  · exact Or.inr (Or.inl (by simp))
  · exact Or.inr (Or.inr (Or.inr (by simp [tagOf])))


theorem processInbox_of_inboxEmpty (srv : Server) (faults : List Bool)
    (st : LocalState) (q : Option StoredObj) (h : inboxEmpty srv = true) :
    processInbox srv faults st (serverGet srv "bot_inbox") q
      = ⟨srv, faults, st, q, []⟩ := by
  apply processInbox_skip
  rw [inboxEmpty] at h
  cases hsi : srv.bot_inbox with
  | none => simp [serverGet, serverGetSlot, hsi, inboxValueOf, inboxNonEmpty, truthy, isEmptyStr]
  | some p =>
    rcases p with ⟨s, v⟩
    rw [hsi] at h
    have hs : s = "" := by simpa using h
    subst hs
    simp [serverGet, serverGetSlot, hsi, inboxValueOf, inboxNonEmpty, truthy, isEmptyStr]

theorem runCycle_st_eq (srv : Server) (faults : List Bool) (st : LocalState) (now : Int) :
    (runCycle srv faults st now).st
      = (playbackPromote
          (playbackExpiry
            (processInbox srv faults st (serverGet srv "bot_inbox")
              (serverGet srv "music_queue")).srv
            (processInbox srv faults st (serverGet srv "bot_inbox")
              (serverGet srv "music_queue")).faults
            (processInbox srv faults st (serverGet srv "bot_inbox")
              (serverGet srv "music_queue")).st
            (processInbox srv faults st (serverGet srv "bot_inbox")
              (serverGet srv "music_queue")).queueObj
            now).st now).1 := rfl


/-- C6 counterexample: with a Playing state whose deadline 50 has passed
(`now = 60`) and a two-entry queue, the cycle does pop the former head —
but the end-of-cycle state is `Playing` (the next head was promoted in
the same cycle), not `Idle` as the claim states. -/
theorem claim6_counterexample :
    (runCycle srvC6 [] stC6 60).st.isPlaying = true ∧
    (runCycle srvC6 [] stC6 60).st.currentSong = some (Js.str "b") := by
  exact ⟨rfl, rfl⟩

/-- C6 amended: while Playing with deadline `T`, every poll with
`now < T` leaves the state Playing with `currentEntry` unchanged and the
queue head not removed (the head is never removed while it is playing);
on the first poll with `now ≥ T` (shown here for a cycle with no pending
inbox request) the former head is removed exactly once, and the
scheduler becomes Idle only when the remaining queue is empty — with a
non-empty remainder it immediately becomes Playing the next head. -/
theorem claim6_amended (srv : Server) (faults : List Bool) (st : LocalState)
    (now T : Int) (hp : st.isPlaying = true) (hd : st.playingUntil = some T) :
    (now < T →
      (runCycle srv faults st now).st.isPlaying = true ∧
      (runCycle srv faults st now).st.currentSong = st.currentSong ∧
      (runCycle srv faults st now).st.playingUntil = some T ∧
      (st.musicQueue ≠ [] →
        (runCycle srv faults st now).st.musicQueue.head? = st.musicQueue.head?)) ∧
    (T ≤ now → inboxEmpty srv = true →
      (runCycle srv faults st now).st.musicQueue = st.musicQueue.tail ∧
      (match st.musicQueue.tail with
       | [] => (runCycle srv faults st now).st.isPlaying = false ∧
           (runCycle srv faults st now).st.currentSong = none
       | s :: _ => (runCycle srv faults st now).st.isPlaying = true ∧
           (runCycle srv faults st now).st.currentSong = some s)) := by
  constructor
  · intro hlt
    obtain ⟨hip, hpu, hcs, t, hmq⟩ :=
      processInbox_state srv faults st (serverGet srv "bot_inbox")
        (serverGet srv "music_queue")
    have hskip : ((processInbox srv faults st (serverGet srv "bot_inbox")
        (serverGet srv "music_queue")).st.isPlaying
          && deadlineReached (processInbox srv faults st (serverGet srv "bot_inbox")
            (serverGet srv "music_queue")).st.playingUntil now) = false := by
      rw [hip, hpu, hp, hd]
      simp [deadlineReached]
      omega
    rw [runCycle_st_eq, playbackExpiry_skip _ _ _ _ now hskip,
      playbackPromote_playing _ now (hip.trans hp)]
    refine ⟨hip.trans hp, hcs.trans rfl, hpu.trans hd, fun hq => ?_⟩
    rw [hmq]
    cases hmqs : st.musicQueue with
    | nil => exact absurd hmqs hq
    | cons a l => simp
  · intro hge hie
    have hfire : ((processInbox srv faults st (serverGet srv "bot_inbox")
        (serverGet srv "music_queue")).st.isPlaying
          && deadlineReached (processInbox srv faults st (serverGet srv "bot_inbox")
            (serverGet srv "music_queue")).st.playingUntil now) = true := by
      rw [processInbox_of_inboxEmpty srv faults st _ hie]
      rw [hp, hd]
      simp [deadlineReached]
      omega
    have hexp := playbackExpiry_state
      (processInbox srv faults st (serverGet srv "bot_inbox")
        (serverGet srv "music_queue")).srv
      (processInbox srv faults st (serverGet srv "bot_inbox")
        (serverGet srv "music_queue")).faults
      (processInbox srv faults st (serverGet srv "bot_inbox")
        (serverGet srv "music_queue")).st
      (processInbox srv faults st (serverGet srv "bot_inbox")
        (serverGet srv "music_queue")).queueObj
      now hfire
    rw [processInbox_of_inboxEmpty srv faults st _ hie] at hexp hfire
    rw [runCycle_st_eq]
    rw [processInbox_of_inboxEmpty srv faults st _ hie]
    cases hmt : st.musicQueue.tail with
    | nil =>
      rw [playbackPromote_idle_nil _ now (by rw [hexp]) (by rw [hexp]; exact hmt)]
      rw [hexp]
      exact ⟨hmt, rfl, rfl⟩
    | cons s tl =>
      rw [playbackPromote_idle_cons _ now s tl (by rw [hexp]) (by rw [hexp]; exact hmt)]
      refine ⟨?_, rfl, rfl⟩
      rw [hexp]
      exact hmt

theorem claim6_witness :
    (runCycle srvC6 [] { musicQueue := [Js.str "a"], isPlaying := true, currentSong := some (Js.str "a"), playingUntil := some 50 } 40).st.isPlaying = true :=
  ((claim6_amended srvC6 []
    { musicQueue := [Js.str "a"], isPlaying := true, currentSong := some (Js.str "a"), playingUntil := some 50 }
    40 50 rfl rfl).1 (by norm_num)).1

theorem playbackExpiry_bot_inbox (srv : Server) (faults : List Bool) (st : LocalState)
    (q : Option StoredObj) (now : Int) :
    (playbackExpiry srv faults st q now).srv.bot_inbox = srv.bot_inbox := by
  rw [playbackExpiry]
  split
  · dsimp only
    split
    all_goals exact updateStorage_bot_inbox_of_queue _ _ _ _
  · rfl

/-- When the fetched inbox is non-empty and the first `PUT` is not
faulted, inbox processing emits the clear of the inbox as its very first
storage action (which succeeds against the version it just fetched), and
the inbox value on the server is the empty string from then on, whatever
happens to the queue write afterwards. -/
theorem processInbox_nonempty_inbox (srv : Server) (faults : List Bool)
    (st : LocalState) (q : Option StoredObj) (s : String) (vi : Nat)
    (hin : srv.bot_inbox = some (s, vi)) (hs : s ≠ "")
    (hf : faults.headD false = false) :
    (∃ rest, (processInbox srv faults st (serverGet srv "bot_inbox") q).events
      = .putReq "bot_inbox" "" (normVersion (some vi))
        :: .putOk "bot_inbox" (vi + 1) :: rest) ∧
    (processInbox srv faults st (serverGet srv "bot_inbox") q).srv.bot_inbox.map
      Prod.fst = some "" := by
  have hID : serverGet srv "bot_inbox"
      = some { value := s, metadata := some { version := some vi } } := by
    simp [serverGet, serverGetSlot, hin]
  rw [hID, processInbox]
  have hguard : inboxNonEmpty
      (inboxValueOf (some { value := s, metadata := some { version := some vi } }))
        = true := by
    simp [inboxValueOf, inboxNonEmpty, truthy, isEmptyStr, hs]
  rw [if_pos hguard]
  rw [show metaVersion (some { value := s, metadata := some { version := some vi } })
    = some vi from rfl]
  rw [show inboxValueOf (some { value := s, metadata := some { version := some vi } })
    = Js.str s from rfl]
  rw [updateStorage_clear_succeeds srv faults s vi hin hf]
  rcases q with _ | d
  all_goals
    dsimp only
    split
    · -- the decoded request is `null`: the catch re-clears the inbox
      constructor
      · exact ⟨_, rfl⟩
      · dsimp only
        apply updateStorage_inbox_keeps_empty _ _ _ (vi + 1)
        rfl
    · split
      · -- queue write succeeded
        constructor
        · exact ⟨_, rfl⟩
        · dsimp only
          rw [updateStorage_bot_inbox_of_queue]
          rfl
      · -- queue write failed; the catch re-clears the inbox
        constructor
        · exact ⟨_, rfl⟩
        · dsimp only
          apply updateStorage_inbox_keeps_empty _ _ _ (vi + 1)
          rw [updateStorage_bot_inbox_of_queue]

/-- C2: when the fetched inbox holds a non-empty value, the first storage
action of the cycle after the two fetches is the write of the empty value
back to the inbox with the inbox's fetched version — before the resolver
runs and before any queue append or queue write — and at the end of the
cycle the server-side inbox holds the empty value, so a subsequent read
before a new producer write returns empty and each inbox value is
drained at most once. -/
theorem claim2_clear_first (srv : Server) (faults : List Bool) (st : LocalState)
    (now : Int) (s : String) (vi : Nat)
    (hin : srv.bot_inbox = some (s, vi)) (hs : s ≠ "")
    (hf : faults.headD false = false) :
    (∃ rest, (runCycle srv faults st now).events
      = [.getReq "bot_inbox", .getReq "music_queue",
         .putReq "bot_inbox" "" (normVersion (some vi)),
         .putOk "bot_inbox" (vi + 1)] ++ rest) ∧
    (runCycle srv faults st now).srv.bot_inbox.map Prod.fst = some "" := by
  obtain ⟨⟨rest, hrest⟩, hsrv⟩ :=
    processInbox_nonempty_inbox srv faults st (serverGet srv "music_queue") s vi hin hs hf
  constructor
  · refine ⟨rest
      ++ (playbackExpiry
            (processInbox srv faults st (serverGet srv "bot_inbox")
              (serverGet srv "music_queue")).srv
            (processInbox srv faults st (serverGet srv "bot_inbox")
              (serverGet srv "music_queue")).faults
            (processInbox srv faults st (serverGet srv "bot_inbox")
              (serverGet srv "music_queue")).st
            (processInbox srv faults st (serverGet srv "bot_inbox")
              (serverGet srv "music_queue")).queueObj
            now).events
      ++ (playbackPromote
            (playbackExpiry
              (processInbox srv faults st (serverGet srv "bot_inbox")
                (serverGet srv "music_queue")).srv
              (processInbox srv faults st (serverGet srv "bot_inbox")
                (serverGet srv "music_queue")).faults
              (processInbox srv faults st (serverGet srv "bot_inbox")
                (serverGet srv "music_queue")).st
              (processInbox srv faults st (serverGet srv "bot_inbox")
                (serverGet srv "music_queue")).queueObj
              now).st now).2, ?_⟩
    have hev : (runCycle srv faults st now).events
        = [Event.getReq "bot_inbox", Event.getReq "music_queue"]
          ++ (processInbox srv faults st (serverGet srv "bot_inbox")
                (serverGet srv "music_queue")).events
          ++ (playbackExpiry
                (processInbox srv faults st (serverGet srv "bot_inbox")
                  (serverGet srv "music_queue")).srv
                (processInbox srv faults st (serverGet srv "bot_inbox")
                  (serverGet srv "music_queue")).faults
                (processInbox srv faults st (serverGet srv "bot_inbox")
                  (serverGet srv "music_queue")).st
                (processInbox srv faults st (serverGet srv "bot_inbox")
                  (serverGet srv "music_queue")).queueObj
                now).events
          ++ (playbackPromote
                (playbackExpiry
                  (processInbox srv faults st (serverGet srv "bot_inbox")
                    (serverGet srv "music_queue")).srv
                  (processInbox srv faults st (serverGet srv "bot_inbox")
                    (serverGet srv "music_queue")).faults
                  (processInbox srv faults st (serverGet srv "bot_inbox")
                    (serverGet srv "music_queue")).st
                  (processInbox srv faults st (serverGet srv "bot_inbox")
                    (serverGet srv "music_queue")).queueObj
                  now).st now).2 := rfl
    rw [hev, hrest]
    simp
  · have hst : (runCycle srv faults st now).srv
        = (playbackExpiry
            (processInbox srv faults st (serverGet srv "bot_inbox")
              (serverGet srv "music_queue")).srv
            (processInbox srv faults st (serverGet srv "bot_inbox")
              (serverGet srv "music_queue")).faults
            (processInbox srv faults st (serverGet srv "bot_inbox")
              (serverGet srv "music_queue")).st
            (processInbox srv faults st (serverGet srv "bot_inbox")
              (serverGet srv "music_queue")).queueObj
            now).srv := rfl
    rw [hst, playbackExpiry_bot_inbox]
    exact hsrv

theorem claim2_witness :
    (runCycle { bot_inbox := some ("hello", 2), music_queue := some ("[]", 1) } []
      { musicQueue := [], isPlaying := false, currentSong := none, playingUntil := some 0 }
      0).srv.bot_inbox.map Prod.fst = some "" :=
  (claim2_clear_first { bot_inbox := some ("hello", 2), music_queue := some ("[]", 1) }
    [] { musicQueue := [], isPlaying := false, currentSong := none, playingUntil := some 0 }
    0 "hello" 2 rfl (by decide) rfl).2

theorem updateStorage_no_queue_put (srv : Server) (faults : List Bool) (value : Js)
    (version : Option Nat) :
    ((updateStorage srv faults "bot_inbox" value version).events.filter
      isQueuePutReq) = [] := by
  rw [updateStorage_events]
  cases (updateStorage srv faults "bot_inbox" value version).result <;> rfl

theorem updateStorage_no_get (srv : Server) (faults : List Bool) (key : String)
    (value : Js) (version : Option Nat) :
    ((updateStorage srv faults key value version).events.filter isGetReq) = [] := by
  rw [updateStorage_events]
  cases (updateStorage srv faults key value version).result <;> rfl

theorem updateStorage_no_queue_storage (srv : Server) (faults : List Bool) (value : Js)
    (version : Option Nat) :
    ((updateStorage srv faults "bot_inbox" value version).events.filter
      isQueueStorageEvent) = [] := by
  rw [updateStorage_events]
  cases (updateStorage srv faults "bot_inbox" value version).result <;> rfl

theorem playbackPromote_filter_nil (st : LocalState) (now : Int) (p : Event → Bool)
    (hp : ∀ song, p (.promote song) = false) :
    ((playbackPromote st now).2.filter p) = [] := by
  rcases playbackPromote_events_cases st now with h | ⟨song, h⟩
  · rw [h]
    rfl
  · rw [h]
    simp [List.filter_cons, hp song]

/-- The inbox-processing outcome of a cycle whose inbox holds a value and
whose queue write hits a `VersionConflict` (modelled by the injected
fault): no re-read and no second queue write occur — the trace holds
exactly one queue `PUT` request — and the appended entry stays in the
local queue. -/
theorem processInbox_conflict (srv : Server) (fs : List Bool) (st : LocalState)
    (q : Option StoredObj) (s : String) (vi : Nat)
    (hin : srv.bot_inbox = some (s, vi)) (hs : s ≠ "")
    (hnn : isNullJs (decodeRequest (.str s)) = false) :
    (((processInbox srv (false :: true :: fs) st (serverGet srv "bot_inbox") q).events.filter
        isQueuePutReq).length = 1) ∧
    (((processInbox srv (false :: true :: fs) st (serverGet srv "bot_inbox") q).events.filter
        isGetReq) = []) ∧
    ((processInbox srv (false :: true :: fs) st (serverGet srv "bot_inbox") q).st.isPlaying
      = st.isPlaying) ∧
    (∃ song, (processInbox srv (false :: true :: fs) st (serverGet srv "bot_inbox") q).st.musicQueue
      = st.musicQueue ++ [song]) := by
  have hID : serverGet srv "bot_inbox"
      = some { value := s, metadata := some { version := some vi } } := by
    simp [serverGet, serverGetSlot, hin]
  have hguard : inboxNonEmpty
      (inboxValueOf (some { value := s, metadata := some { version := some vi } }))
        = true := by
    simp [inboxValueOf, inboxNonEmpty, truthy, isEmptyStr, hs]
  have f1 : ∀ (x : Option Nat), isQueuePutReq (Event.putReq "bot_inbox" "" x) = false :=
    fun _ => rfl
  have f2 : ∀ w, isQueuePutReq (Event.putOk "bot_inbox" w) = false := fun _ => rfl
  have f3 : ∀ qy, isQueuePutReq (Event.resolve qy) = false := fun _ => rfl
  have f4 : ∀ sg, isQueuePutReq (Event.append sg) = false := fun _ => rfl
  have f5 : ∀ p x, isQueuePutReq (Event.putReq "music_queue" p x) = true := fun _ _ => rfl
  have f6 : isQueuePutReq (Event.putFail "music_queue") = false := rfl
  have g1 : ∀ (x : Option Nat), isGetReq (Event.putReq "bot_inbox" "" x) = false :=
    fun _ => rfl
  have g2 : ∀ w, isGetReq (Event.putOk "bot_inbox" w) = false := fun _ => rfl
  have g3 : ∀ qy, isGetReq (Event.resolve qy) = false := fun _ => rfl
  have g4 : ∀ sg, isGetReq (Event.append sg) = false := fun _ => rfl
  have g5 : ∀ p x, isGetReq (Event.putReq "music_queue" p x) = false := fun _ _ => rfl
  have g6 : isGetReq (Event.putFail "music_queue") = false := rfl
  rw [hID, processInbox]
  rw [if_pos hguard]
  rw [show metaVersion (some { value := s, metadata := some { version := some vi } })
    = some vi from rfl]
  rw [show inboxValueOf (some { value := s, metadata := some { version := some vi } })
    = Js.str s from rfl]
  rw [updateStorage_clear_succeeds srv (false :: true :: fs) s vi hin rfl]
  dsimp only
  simp only [hnn, Bool.false_eq_true, if_false]
  simp only [List.tail_cons]
  rw [updateStorage_fault _ (true :: fs) _ _ _ rfl]
  dsimp only
  refine ⟨?_, ?_, rfl, ⟨_, rfl⟩⟩
  · simp [List.filter_cons, List.filter_append, f1, f2, f3, f4, f5, f6,
      updateStorage_no_queue_put]
  · simp [List.filter_cons, List.filter_append, g1, g2, g3, g4, g5, g6,
      updateStorage_no_get]


/-- C1 counterexample: run one cycle in which the inbox holds `"hi"` and
the queue write hits a `VersionConflict` (injected fault on the second
`PUT`).  The whole cycle performs exactly one queue `PUT` request and
exactly the two initial reads — both before any write — so after the
conflict there is no re-read of the remote object and no retried queue
write, refuting the claimed re-read/reconcile/retry-once behaviour. -/
theorem claim1_counterexample :
    (((runCycle srvC1 [false, true] (initialState none) 0).events.filter
        isQueuePutReq).length = 1) ∧
    ((runCycle srvC1 [false, true] (initialState none) 0).events.filter isGetReq
      = [.getReq "bot_inbox", .getReq "music_queue"]) ∧
    ((runCycle srvC1 [false, true] (initialState none) 0).events.take 2
      = [.getReq "bot_inbox", .getReq "music_queue"]) := by
  exact ⟨rfl, rfl, rfl⟩

/-- C1 amended: when the inbox request decodes to something other than
JSON `null` (a `null` request throws at `request.query` before any
append — see `processInbox_null_request`), the queue is persisted once
with the version fetched at the top of the cycle; when that write fails
with a `VersionConflict`, the error is caught, the cycle performs no
re-read and no retry of the queue write (the only `GET`s are the two
initial fetches), and the appended entry merely remains in the local
queue. -/
theorem claim1_amended (srv : Server) (fs : List Bool) (st : LocalState)
    (now : Int) (s : String) (vi : Nat)
    (hin : srv.bot_inbox = some (s, vi)) (hs : s ≠ "")
    (hnn : isNullJs (decodeRequest (.str s)) = false)
    (hnp : st.isPlaying = false) :
    (((runCycle srv (false :: true :: fs) st now).events.filter
        isQueuePutReq).length = 1) ∧
    ((runCycle srv (false :: true :: fs) st now).events.filter isGetReq
      = [.getReq "bot_inbox", .getReq "music_queue"]) ∧
    ((runCycle srv (false :: true :: fs) st now).events.take 2
      = [.getReq "bot_inbox", .getReq "music_queue"]) ∧
    (∃ song, (runCycle srv (false :: true :: fs) st now).st.musicQueue
      = st.musicQueue ++ [song]) := by
  obtain ⟨hq1, hg1, hip, song, hsong⟩ :=
    processInbox_conflict srv fs st (serverGet srv "music_queue") s vi hin hs hnn
  have hev : (runCycle srv (false :: true :: fs) st now).events
      = [Event.getReq "bot_inbox", Event.getReq "music_queue"]
        ++ (processInbox srv (false :: true :: fs) st (serverGet srv "bot_inbox")
              (serverGet srv "music_queue")).events
        ++ (playbackExpiry
              (processInbox srv (false :: true :: fs) st (serverGet srv "bot_inbox")
                (serverGet srv "music_queue")).srv
              (processInbox srv (false :: true :: fs) st (serverGet srv "bot_inbox")
                (serverGet srv "music_queue")).faults
              (processInbox srv (false :: true :: fs) st (serverGet srv "bot_inbox")
                (serverGet srv "music_queue")).st
              (processInbox srv (false :: true :: fs) st (serverGet srv "bot_inbox")
                (serverGet srv "music_queue")).queueObj
              now).events
        ++ (playbackPromote
              (playbackExpiry
                (processInbox srv (false :: true :: fs) st (serverGet srv "bot_inbox")
                  (serverGet srv "music_queue")).srv
                (processInbox srv (false :: true :: fs) st (serverGet srv "bot_inbox")
                  (serverGet srv "music_queue")).faults
                (processInbox srv (false :: true :: fs) st (serverGet srv "bot_inbox")
                  (serverGet srv "music_queue")).st
                (processInbox srv (false :: true :: fs) st (serverGet srv "bot_inbox")
                  (serverGet srv "music_queue")).queueObj
                now).st now).2 := rfl
  have hskip : ((processInbox srv (false :: true :: fs) st (serverGet srv "bot_inbox")
      (serverGet srv "music_queue")).st.isPlaying
        && deadlineReached (processInbox srv (false :: true :: fs) st
          (serverGet srv "bot_inbox") (serverGet srv "music_queue")).st.playingUntil
          now) = false := by
    rw [hip, hnp]
    rfl
  have hgets_q : List.filter isQueuePutReq
      [Event.getReq "bot_inbox", Event.getReq "music_queue"] = [] := rfl
  have hgets_g : List.filter isGetReq
      [Event.getReq "bot_inbox", Event.getReq "music_queue"]
        = [Event.getReq "bot_inbox", Event.getReq "music_queue"] := rfl
  rw [hev, playbackExpiry_skip _ _ _ _ now hskip]
  dsimp only
  refine ⟨?_, ?_, rfl, ?_⟩
  · rw [List.filter_append, List.filter_append, List.filter_append, hgets_q,
      List.filter_nil, playbackPromote_filter_nil _ now isQueuePutReq (fun _ => rfl)]
    simpa using hq1
  · rw [List.filter_append, List.filter_append, List.filter_append, hgets_g,
      List.filter_nil, playbackPromote_filter_nil _ now isGetReq (fun _ => rfl), hg1]
    simp
  · refine ⟨song, ?_⟩
    rw [runCycle_st_eq, playbackExpiry_skip _ _ _ _ now hskip]
    dsimp only
    rw [playbackPromote_queue]
    exact hsong

/-- Witness for `claim1_amended` at a concrete server, fault list,
state and clock. -/
theorem claim1_witness :
    srvC1.bot_inbox = some ("hi", 1) ∧ "hi" ≠ "" ∧
    isNullJs (decodeRequest (.str "hi")) = false ∧
    (initialState none).isPlaying = false ∧
    (((runCycle srvC1 (false :: true :: []) (initialState none) 0).events.filter
        isQueuePutReq).length = 1) :=
  ⟨rfl, by decide, rfl, rfl,
    (claim1_amended srvC1 [] (initialState none) 0 "hi" 1 rfl (by decide) rfl rfl).1⟩

/-- With no injected fault, a queue write with the version the server
currently holds succeeds and bumps the stored version. -/
theorem updateStorage_queue_succeeds (srv : Server) (faults : List Bool)
    (value : Js) (qs : String) (vq : Nat)
    (hq : srv.music_queue = some (qs, vq)) (hvq : vq ≠ 0)
    (hf : faults.headD false = false) :
    updateStorage srv faults "music_queue" value (some vq)
      = ⟨{ srv with music_queue := some (putPayload value, vq + 1) }, faults.tail,
         [.putReq "music_queue" (putPayload value) (some vq),
          .putOk "music_queue" (vq + 1)],
         some (vq + 1)⟩ := by
  cases faults with
  | nil =>
    rw [updateStorage]
    simp [normVersion, hvq, serverPut, serverGetSlot, serverSetSlot, hq]
  | cons b bs =>
    have hb : b = false := hf
    subst hb
    rw [updateStorage]
    simp [normVersion, hvq, serverPut, serverGetSlot, serverSetSlot, hq]

/-- The fault-free inbox-processing path in closed form: the inbox is
cleared at its fetched version, the entry is appended, and the queue is
written once with the version fetched this cycle; on success the cached
`queueObj` version is bumped to the newly returned one. -/
theorem processInbox_success (srv : Server) (st : LocalState)
    (s qs : String) (vi vq : Nat)
    (hin : srv.bot_inbox = some (s, vi)) (hs : s ≠ "")
    (hq : srv.music_queue = some (qs, vq)) (hvq : vq ≠ 0)
    (hnn : isNullJs (decodeRequest (.str s)) = false) :
    ∃ song query,
      processInbox srv [] st (serverGet srv "bot_inbox") (serverGet srv "music_queue")
        = { srv := { bot_inbox := some ("", vi + 1)
                     music_queue := some (putPayload (.arr (st.musicQueue ++ [song])), vq + 1) }
            faults := []
            st := { st with musicQueue := st.musicQueue ++ [song] }
            queueObj := some { value := qs, metadata := some { version := some (vq + 1) } }
            events := [.putReq "bot_inbox" "" (normVersion (some vi)),
                       .putOk "bot_inbox" (vi + 1),
                       .resolve query, .append song,
                       .putReq "music_queue"
                         (putPayload (.arr (st.musicQueue ++ [song]))) (some vq),
                       .putOk "music_queue" (vq + 1)] } := by
  have hID : serverGet srv "bot_inbox"
      = some { value := s, metadata := some { version := some vi } } := by
    simp [serverGet, serverGetSlot, hin]
  have hQD : serverGet srv "music_queue"
      = some { value := qs, metadata := some { version := some vq } } := by
    simp [serverGet, serverGetSlot, hq]
  have hguard : inboxNonEmpty
      (inboxValueOf (some { value := s, metadata := some { version := some vi } }))
        = true := by
    simp [inboxValueOf, inboxNonEmpty, truthy, isEmptyStr, hs]
  rw [hID, hQD, processInbox]
  rw [if_pos hguard]
  rw [show metaVersion (some { value := s, metadata := some { version := some vi } })
    = some vi from rfl]
  rw [show inboxValueOf (some { value := s, metadata := some { version := some vi } })
    = Js.str s from rfl]
  rw [updateStorage_clear_succeeds srv [] s vi hin rfl]
  dsimp only
  simp only [hnn, Bool.false_eq_true, if_false]
  simp only [List.tail_nil]
  rw [show metaVersion (some { value := qs, metadata := some { version := some vq } })
    = some vq from rfl]
  have hq' : ({ srv with bot_inbox := some ("", vi + 1) } : Server).music_queue
      = some (qs, vq) := hq
  rw [updateStorage_queue_succeeds _ [] _ qs vq hq' hvq rfl]
  dsimp only
  exact ⟨_, _, rfl⟩


/-- C3 counterexample: the inbox clear succeeds and returns version 5
(event index 3), yet when the queue write fails later in the same cycle,
the catch handler re-clears the inbox with the start-of-cycle version 4
(event index 8) — a version token the process already knows to be
superseded — and that stale write then fails (index 9).  This refutes
the claim that no subsequent write ever uses a superseded version. -/
theorem claim3_counterexample :
    ((runCycle srvC3 [false, true, false] (initialState none) 0).events[3]?
      = some (.putOk "bot_inbox" 5)) ∧
    ((runCycle srvC3 [false, true, false] (initialState none) 0).events[8]?
      = some (.putReq "bot_inbox" "" (some 4))) ∧
    ((runCycle srvC3 [false, true, false] (initialState none) 0).events[9]?
      = some (.putFail "bot_inbox")) := by
  exact ⟨rfl, rfl, rfl⟩

/-- C3 amended: on the fault-free path with a request that decodes to
something other than JSON `null` (a `null` request throws at
`request.query` and skips the inbox-phase queue write — see
`processInbox_null_request`), the invariant does hold for the queue
key — the cycle's first queue write uses the version fetched this
cycle, its success updates the cached version, and the second queue
write of the same cycle (the expiry persist) uses exactly the freshly
returned version.  (The counterexample shows the catch-path inbox
re-clear is the exception: it reuses the start-of-cycle inbox version
even after a successful clear returned a newer one.) -/
theorem claim3_amended (srv : Server) (st : LocalState) (now : Int)
    (s qs : String) (vi vq : Nat) (T : Int)
    (hin : srv.bot_inbox = some (s, vi)) (hs : s ≠ "")
    (hnn : isNullJs (decodeRequest (.str s)) = false)
    (hq : srv.music_queue = some (qs, vq)) (hvq : vq ≠ 0)
    (hp : st.isPlaying = true) (hu : st.playingUntil = some T) (hT : T ≤ now) :
    ∃ p₁ p₂,
      (runCycle srv [] st now).events.filter isQueueStorageEvent
        = [.putReq "music_queue" p₁ (some vq), .putOk "music_queue" (vq + 1),
           .putReq "music_queue" p₂ (some (vq + 1)), .putOk "music_queue" (vq + 2)] := by
  obtain ⟨song, query, hPI⟩ := processInbox_success srv st s qs vi vq hin hs hq hvq hnn
  have hev : (runCycle srv [] st now).events
      = [Event.getReq "bot_inbox", Event.getReq "music_queue"]
        ++ (processInbox srv [] st (serverGet srv "bot_inbox")
              (serverGet srv "music_queue")).events
        ++ (playbackExpiry
              (processInbox srv [] st (serverGet srv "bot_inbox")
                (serverGet srv "music_queue")).srv
              (processInbox srv [] st (serverGet srv "bot_inbox")
                (serverGet srv "music_queue")).faults
              (processInbox srv [] st (serverGet srv "bot_inbox")
                (serverGet srv "music_queue")).st
              (processInbox srv [] st (serverGet srv "bot_inbox")
                (serverGet srv "music_queue")).queueObj
              now).events
        ++ (playbackPromote
              (playbackExpiry
                (processInbox srv [] st (serverGet srv "bot_inbox")
                  (serverGet srv "music_queue")).srv
                (processInbox srv [] st (serverGet srv "bot_inbox")
                  (serverGet srv "music_queue")).faults
                (processInbox srv [] st (serverGet srv "bot_inbox")
                  (serverGet srv "music_queue")).st
                (processInbox srv [] st (serverGet srv "bot_inbox")
                  (serverGet srv "music_queue")).queueObj
                now).st now).2 := rfl
  rw [hev, hPI]
  dsimp only
  have hguard2 : (({ st with musicQueue := st.musicQueue ++ [song] }
      : LocalState).isPlaying
        && deadlineReached ({ st with musicQueue := st.musicQueue ++ [song] }
          : LocalState).playingUntil now) = true := by
    dsimp only
    rw [hp, hu]
    simp [deadlineReached, hT]
  rw [playbackExpiry_events _ _ _ _ now hguard2]
  rw [playbackExpiry_state _ _ _ _ now hguard2]
  dsimp only
  rw [show metaVersion (some { value := qs, metadata := some { version := some (vq + 1) } })
    = some (vq + 1) from rfl]
  have hq2 : ({ bot_inbox := some ("", vi + 1),
                music_queue := some (putPayload (.arr (st.musicQueue ++ [song])), vq + 1) }
        : Server).music_queue
      = some (putPayload (.arr (st.musicQueue ++ [song])), vq + 1) := rfl
  rw [updateStorage_queue_succeeds _ [] _ _ (vq + 1) hq2 (Nat.succ_ne_zero vq) rfl]
  dsimp only
  have r1 : ∀ (x : Option Nat), isQueueStorageEvent (Event.putReq "bot_inbox" "" x)
      = false := fun _ => rfl
  have r2 : ∀ w, isQueueStorageEvent (Event.putOk "bot_inbox" w) = false := fun _ => rfl
  have r3 : ∀ qy, isQueueStorageEvent (Event.resolve qy) = false := fun _ => rfl
  have r4 : ∀ sg, isQueueStorageEvent (Event.append sg) = false := fun _ => rfl
  have r5 : ∀ p x, isQueueStorageEvent (Event.putReq "music_queue" p x) = true :=
    fun _ _ => rfl
  have r6 : ∀ w, isQueueStorageEvent (Event.putOk "music_queue" w) = true := fun _ => rfl
  have r7 : isQueueStorageEvent Event.songFinished = false := rfl
  have r8 : isQueueStorageEvent Event.pop = false := rfl
  have r9 : ∀ x, isQueueStorageEvent (Event.getReq x) = false := fun _ => rfl
  have hpp := playbackPromote_filter_nil
    { st with
       musicQueue := (st.musicQueue ++ [song]).tail
       isPlaying := false
       currentSong := none }
    now isQueueStorageEvent (fun _ => rfl)
  refine ⟨putPayload (.arr (st.musicQueue ++ [song])),
    putPayload (.arr (st.musicQueue ++ [song]).tail), ?_⟩
  simp [List.filter_append, List.filter_cons, r1, r2, r3, r4, r5, r6, r7, r8, r9, hpp]

/-- Witness for `claim3_amended` at a concrete server, local state and
clock. -/
theorem claim3_witness :
    srvC3.bot_inbox = some ("yo", 4) ∧ srvC3.music_queue = some ("[]", 9) ∧
    ("yo" : String) ≠ "" ∧ isNullJs (decodeRequest (.str "yo")) = false ∧
    (9 : Nat) ≠ 0 ∧ (10 : Int) ≤ 20 ∧
    ∃ p₁ p₂,
      (runCycle srvC3 []
        { musicQueue := [Js.str "x"], isPlaying := true
          currentSong := some (Js.str "x"), playingUntil := some 10 }
        20).events.filter isQueueStorageEvent
        = [.putReq "music_queue" p₁ (some 9), .putOk "music_queue" 10,
           .putReq "music_queue" p₂ (some 10), .putOk "music_queue" 11] :=
  ⟨rfl, rfl, by decide, rfl, by decide, by decide,
    claim3_amended srvC3
      { musicQueue := [Js.str "x"], isPlaying := true
        currentSong := some (Js.str "x"), playingUntil := some 10 }
      20 "yo" "[]" 4 9 10 rfl (by decide) rfl rfl (by decide) rfl rfl (by decide)⟩

/-- When the decoded request is JSON `null` (for instance an inbox value
of `"null"`), `request.query` throws after the inbox clear: the cycle
resolves nothing, appends nothing and performs no queue write — the
catch handler only re-clears the inbox. -/
theorem processInbox_null_request (srv : Server) (faults : List Bool)
    (st : LocalState) (q : Option StoredObj) (s : String) (vi : Nat)
    (hin : srv.bot_inbox = some (s, vi)) (hs : s ≠ "")
    (hnn : isNullJs (decodeRequest (.str s)) = true)
    (hf : faults.headD false = false) :
    ((processInbox srv faults st (serverGet srv "bot_inbox") q).events.filter
        isQueuePutReq) = [] ∧
    (processInbox srv faults st (serverGet srv "bot_inbox") q).st = st := by
  have hID : serverGet srv "bot_inbox"
      = some { value := s, metadata := some { version := some vi } } := by
    simp [serverGet, serverGetSlot, hin]
  have hguard : inboxNonEmpty
      (inboxValueOf (some { value := s, metadata := some { version := some vi } }))
        = true := by
    simp [inboxValueOf, inboxNonEmpty, truthy, isEmptyStr, hs]
  rw [hID, processInbox]
  rw [if_pos hguard]
  rw [show metaVersion (some { value := s, metadata := some { version := some vi } })
    = some vi from rfl]
  rw [show inboxValueOf (some { value := s, metadata := some { version := some vi } })
    = Js.str s from rfl]
  rw [updateStorage_clear_succeeds srv faults s vi hin hf]
  dsimp only
  simp only [hnn, if_true]
  refine ⟨?_, trivial⟩
  have f1 : ∀ (x : Option Nat), isQueuePutReq (Event.putReq "bot_inbox" "" x) = false :=
    fun _ => rfl
  have f2 : ∀ w, isQueuePutReq (Event.putOk "bot_inbox" w) = false := fun _ => rfl
  simp [List.filter_cons, List.filter_append, f1, f2, updateStorage_no_queue_put]

/-- The whole cycle on an inbox holding the string `"null"`: the inbox
is cleared, but nothing is resolved, appended or written to the queue. -/
theorem runCycle_null_request :
    (((runCycle { bot_inbox := some ("null", 2), music_queue := some ("[]", 3) } []
        (initialState none) 0).events.filter isQueuePutReq) = []) ∧
    ((runCycle { bot_inbox := some ("null", 2), music_queue := some ("[]", 3) } []
        (initialState none) 0).st.musicQueue = []) ∧
    ((runCycle { bot_inbox := some ("null", 2), music_queue := some ("[]", 3) } []
        (initialState none) 0).srv.bot_inbox.map Prod.fst = some "") := by
  exact ⟨rfl, rfl, rfl⟩
